import Mathlib

/-!
Verification development for the Document Intelligence Core of the
AI-Power-Knowledge-Interaction-System repository.

The Python sources (src/finance_analysis.py, src/pdf_utils.py, src/rag.py)
are shallowly embedded below: pure functions become Lean functions over
`List Char` / `String` / `ℚ`, pandas DataFrames become explicit
header+rows records, and the stateful FAISS index becomes explicit state
passing.  Python floats are modelled by exact rationals (all amounts in
scope arise from decimal strings); Python exceptions become `Except`.
-/

set_option maxRecDepth 8000

namespace DocCore

/-! ### Character and string utilities (Python `str` semantics) -/

instance exceptDecEq {ε α : Type} [DecidableEq ε] [DecidableEq α] : DecidableEq (Except ε α) :=
  fun a b =>
    match a, b with
    | .error e, .error f =>
        if h : e = f then .isTrue (congrArg Except.error h)
        else .isFalse (fun c => h (Except.error.inj c))
    | .ok x, .ok y =>
        if h : x = y then .isTrue (congrArg Except.ok h)
        else .isFalse (fun c => h (Except.ok.inj c))
    | .error _, .ok _ => .isFalse (fun c => Except.noConfusion c)
    | .ok _, .error _ => .isFalse (fun c => Except.noConfusion c)


/-- Python whitespace characters recognized by `str.split` / `str.strip`. -/
def isWs (c : Char) : Bool :=
  c = ' ' || c = '\t' || c = '\n' || c = '\u000D' || c = '\u000B' || c = '\u000C'

/-- Python `str.strip()`: drop whitespace from both ends. -/
def pyStrip (l : List Char) : List Char :=
  ((l.dropWhile isWs).reverse.dropWhile isWs).reverse

/-- Split a character list on whitespace runs, as Python `str.split()` with
no argument: empty pieces are discarded. -/
def splitWsAux : List Char → List Char → List (List Char)
  | [], cur => if cur.isEmpty then [] else [cur.reverse]
  | c :: rest, cur =>
      if isWs c then
        if cur.isEmpty then splitWsAux rest [] else cur.reverse :: splitWsAux rest []
      else splitWsAux rest (c :: cur)

/-- Python `s.split()` on a string. -/
def pyWords (s : String) : List String :=
  (splitWsAux s.data []).map String.mk

/-- Python `" ".join(s.split())`: collapse all whitespace runs to single
spaces and trim the ends. -/
def pySplitJoin (s : String) : String :=
  String.intercalate " " (pyWords s)

/-- Python `str.lower()` (ASCII case folding suffices for this code base). -/
def lowerStr (s : String) : String :=
  String.mk (s.data.map Char.toLower)

/-- Test whether `needle` occurs at the start of `hay`. -/
def leadsList : List Char → List Char → Bool
  | [], _ => true
  | _ :: _, [] => false
  | a :: as, b :: bs => a = b && leadsList as bs

/-- Test whether `needle` occurs somewhere inside `hay` (Python `needle in hay`). -/
def containsSub (hay needle : List Char) : Bool :=
  match hay with
  | [] => leadsList needle []
  | _ :: t => leadsList needle hay || containsSub t needle

/-- Python substring membership `needle in hay` on strings. -/
def strContains (hay needle : String) : Bool :=
  containsSub hay.data needle.data

/-! ### Numeric coercion (`_to_number` in src/finance_analysis.py) -/

/-- Fold decimal digit characters into a natural number. -/
def digitsToNat (ds : List Char) : ℕ :=
  ds.foldl (fun a c => a * 10 + (c.toNat - 48)) 0

/-- Parse an unsigned Python float literal restricted to the residual
alphabet `[0-9.]` (the only characters an unsigned candidate can still
contain after `_to_number`'s stripping): `digits [. digits]` or
`. digits`, exactly the strings `float(...)` accepts over that alphabet. -/
def parseUnsigned (cs : List Char) : Option ℚ :=
  let intPart := cs.takeWhile Char.isDigit
  let rest := cs.dropWhile Char.isDigit
  match rest with
  | [] => if intPart.isEmpty then none else some (Rat.divInt (digitsToNat intPart : ℕ) 1)
  | '.' :: frac =>
      if frac.all Char.isDigit then
        if intPart.isEmpty && frac.isEmpty then none
        else
          -- the value `intPart.frac`, i.e. intPart + frac / 10 ^ |frac|,
          -- written as a single integer quotient so that it evaluates
          some (Rat.divInt ((digitsToNat intPart * 10 ^ frac.length + digitsToNat frac : ℕ) : ℤ)
                  ((10 ^ frac.length : ℕ) : ℤ))
      else none
  | _ => none

/-- Python `float(s)` over strings drawn from the alphabet `[0-9.+-]`:
an optional leading sign followed by an unsigned literal; any further
sign or second dot fails. -/
def parsePyFloat (cs : List Char) : Option ℚ :=
  match cs with
  | '+' :: rest => parseUnsigned rest
  | '-' :: rest => (parseUnsigned rest).map Neg.neg
  | _ => parseUnsigned cs

/-- The stripping pipeline of `_to_number`: `replace("$","")`,
`replace(",","")`, then `re.sub(r"[^0-9.\-+]", "", s)`. -/
def amountClean (s : List Char) : List Char :=
  (s.filter (fun c => ¬ (c = '$' ∨ c = ','))).filter
    (fun c => c.isDigit ∨ c = '.' ∨ c = '-' ∨ c = '+')

/-- Embedding of `_to_number` (src/finance_analysis.py lines 29-45): a
missing or blank cell is missing; parentheses anywhere mark a negative;
currency symbols, separators and all other stray characters are stripped;
the residue is parsed as a float, negated-absolute when parenthesized. -/
def _to_number (x : Option String) : Option ℚ :=
  match x with
  | none => none
  | some raw =>
      let s := pyStrip raw.data
      if s.isEmpty then none
      else
        let neg := s.contains '(' && s.contains ')'
        let s2 := amountClean s
        if s2.isEmpty then none
        else
          match parsePyFloat s2 with
          | none => none
          | some v => some (if neg then -|v| else v)

example : _to_number (some "(120.50)") = some (Rat.divInt (-241) 2) := by decide
example : _to_number (some "$1,234.56") = some (Rat.divInt 30864 25) := by decide
example : _to_number (some "-50.00") = some (-50 : ℚ) := by decide
example : _to_number (some "200.00") = some (200 : ℚ) := by decide
example : _to_number (some "(0)") = some 0 := by decide
example : _to_number (some "abc") = none := by decide
example : _to_number (some "1.2.3") = none := by decide
example : _to_number none = none := by decide

/-! ### Datetimes and calendar periods -/

/-- A parsed timestamp (pandas `Timestamp`, to second precision). -/
structure DateTime where
  year : ℕ
  month : ℕ
  day : ℕ
  hour : ℕ
  minute : ℕ
  second : ℕ
deriving DecidableEq

def isLeapYear (y : ℕ) : Bool :=
  (y % 4 = 0 && ¬ y % 100 = 0) || y % 400 = 0

def daysInMonth (y m : ℕ) : ℕ :=
  if m = 2 then (if isLeapYear y then 29 else 28)
  else if m = 4 ∨ m = 6 ∨ m = 9 ∨ m = 11 then 30
  else 31

def mkValidDT (y mo d h mi s : ℕ) : Option DateTime :=
  if 1 ≤ mo ∧ mo ≤ 12 ∧ 1 ≤ d ∧ d ≤ daysInMonth y mo ∧ h ≤ 23 ∧ mi ≤ 59 ∧ s ≤ 59 then
    some ⟨y, mo, d, h, mi, s⟩
  else none

/-- Modelled from the spec: the "generic date/time parse" performed by the
external pandas `to_datetime` collaborator (not code of this repository),
restricted to ISO `YYYY-MM-DD`, `YYYY-MM-DD HH:MM` and
`YYYY-MM-DD HH:MM:SS` forms; anything else is a parse failure. -/
def parseIsoDateTime (cs : List Char) : Option DateTime :=
  match cs with
  | [y1, y2, y3, y4, '-', m1, m2, '-', d1, d2] =>
      if [y1, y2, y3, y4, m1, m2, d1, d2].all Char.isDigit then
        mkValidDT (digitsToNat [y1, y2, y3, y4]) (digitsToNat [m1, m2]) (digitsToNat [d1, d2]) 0 0 0
      else none
  | [y1, y2, y3, y4, '-', m1, m2, '-', d1, d2, ' ', h1, h2, ':', n1, n2] =>
      if [y1, y2, y3, y4, m1, m2, d1, d2, h1, h2, n1, n2].all Char.isDigit then
        mkValidDT (digitsToNat [y1, y2, y3, y4]) (digitsToNat [m1, m2]) (digitsToNat [d1, d2])
          (digitsToNat [h1, h2]) (digitsToNat [n1, n2]) 0
      else none
  | [y1, y2, y3, y4, '-', m1, m2, '-', d1, d2, ' ', h1, h2, ':', n1, n2, ':', s1, s2] =>
      if [y1, y2, y3, y4, m1, m2, d1, d2, h1, h2, n1, n2, s1, s2].all Char.isDigit then
        mkValidDT (digitsToNat [y1, y2, y3, y4]) (digitsToNat [m1, m2]) (digitsToNat [d1, d2])
          (digitsToNat [h1, h2]) (digitsToNat [n1, n2]) (digitsToNat [s1, s2])
      else none
  | _ => none

/-- Coerce one cell with `pd.to_datetime(x, errors="coerce")`: missing stays
missing, an unparseable string becomes missing (NaT). -/
def pyToDatetime (x : Option String) : Option DateTime :=
  match x with
  | none => none
  | some s => parseIsoDateTime (pyStrip s.data)

/-- Resampling frequency: the `freq` strings `'H'`/`'D'`/`'M'` accepted by
`aggregate_finance`. -/
inductive Freq
  | H
  | D
  | M
deriving DecidableEq

/-- Bin label for monthly resampling: months since year 0. -/
def monthIndex (dt : DateTime) : ℤ :=
  (dt.year : ℤ) * 12 + (dt.month : ℤ) - 1

/-- Days in all years before year `y` (proleptic Gregorian). -/
def daysBeforeYear (y : ℕ) : ℤ :=
  365 * ((y : ℤ) - 1) + (((y - 1) / 4 : ℕ) : ℤ) - (((y - 1) / 100 : ℕ) : ℤ)
    + (((y - 1) / 400 : ℕ) : ℤ)

/-- Days in the months of year `y` strictly before month `m`. -/
def daysBeforeMonthInYear (y m : ℕ) : ℕ :=
  (List.range (m - 1)).foldl (fun a i => a + daysInMonth y (i + 1)) 0

/-- Bin label for daily resampling: a rata-die day number. -/
def dayIndex (dt : DateTime) : ℤ :=
  daysBeforeYear dt.year + (daysBeforeMonthInYear dt.year dt.month : ℤ) + (dt.day : ℤ) - 1

/-- Bin label for hourly resampling. -/
def hourIndex (dt : DateTime) : ℤ :=
  dayIndex dt * 24 + (dt.hour : ℤ)

/-- The resampling bin a timestamp falls into at the given frequency. -/
def periodIdx : Freq → DateTime → ℤ
  | .H, dt => hourIndex dt
  | .D, dt => dayIndex dt
  | .M, dt => monthIndex dt

example : pyToDatetime (some "2024-01-05") = some ⟨2024, 1, 5, 0, 0, 0⟩ := by decide
example : pyToDatetime (some "2024-13-05") = none := by decide
example : pyToDatetime (some "garbage") = none := by decide
example : monthIndex ⟨2024, 1, 5, 0, 0, 0⟩ = 24288 := by decide
-- consecutive days across a month boundary get consecutive day indices
example : dayIndex ⟨2024, 2, 1, 0, 0, 0⟩ = dayIndex ⟨2024, 1, 31, 0, 0, 0⟩ + 1 := by decide
example : dayIndex ⟨2024, 3, 1, 0, 0, 0⟩ = dayIndex ⟨2024, 2, 29, 0, 0, 0⟩ + 1 := by decide
example : dayIndex ⟨2023, 3, 1, 0, 0, 0⟩ = dayIndex ⟨2023, 2, 28, 0, 0, 0⟩ + 1 := by decide
example : dayIndex ⟨2024, 1, 1, 0, 0, 0⟩ = dayIndex ⟨2023, 12, 31, 0, 0, 0⟩ + 1 := by decide

/-! ### The DataFrame model and the Column Role Detector
(src/finance_analysis.py lines 48-117) -/

/-- A pandas DataFrame of raw text cells: column names plus rows.
`pd.DataFrame(body, columns=header)` pads short rows with missing values;
rows are kept at exactly `header.length` cells by `padTo`. -/
structure Df where
  header : List String
  rows : List (List (Option String))
deriving DecidableEq

/-- Column of cells at position `j`. -/
def Df.colAt (df : Df) (j : ℕ) : List (Option String) :=
  df.rows.map (fun r => (r.get? j).join)

/-- Select `df[c]`: the column labelled `c` (first occurrence of the label). -/
def Df.colByName (df : Df) (c : String) : List (Option String) :=
  match df.header.findIdx? (fun h => h = c) with
  | some j => df.colAt j
  | none => []

/-- Cell of row `r` in the column labelled `c`. -/
def cellAtName (header : List String) (r : List (Option String)) (c : String) : Option String :=
  match header.findIdx? (fun h => h = c) with
  | some j => (r.get? j).join
  | none => none

def _DATE_HINTS : List String := ["date", "time", "datetime", "timestamp"]

def _AMOUNT_HINTS : List String :=
  ["amount", "amt", "value", "total", "debit", "credit", "payment", "balance"]

def _CATEGORY_HINTS : List String :=
  ["category", "type", "merchant", "description", "desc", "account"]

/-- Collapse every whitespace run to a single space
(`re.sub(r"\s+", " ", s)`). -/
def collapseWsRuns : List Char → List Char
  | [] => []
  | [c] => if isWs c then [' '] else [c]
  | a :: b :: rest =>
      if isWs a && isWs b then collapseWsRuns (b :: rest)
      else (if isWs a then ' ' else a) :: collapseWsRuns (b :: rest)

/-- Embedding of `_normalize_col`: strip, lowercase, collapse inner whitespace. -/
def _normalize_col (c : String) : String :=
  String.mk (collapseWsRuns ((pyStrip c.data).map Char.toLower))

/-- Embedding of `_best_col`: first hint (in priority order) that substring-matches a
normalized column name wins; first matching column in column order. -/
def _best_col (cols : List String) (hints : List String) : Option String :=
  hints.findSome? (fun h => cols.find? (fun c => strContains (_normalize_col c) h))

/-- The running best of the content-scoring loops: start `(None, 0)`,
replace only on a strictly greater score. -/
def bestByScore (items : List (String × ℚ)) : Option String × ℚ :=
  items.foldl (fun acc it => if acc.2 < it.2 then (some it.1, it.2) else acc) (none, 0)

/-- A cell matches the `_AMOUNT_RE` search iff it contains a digit: every
piece of `[-+]?\$?\s*\(?\s*\d{1,3}(?:,\d{3})*(?:\.\d+)?\s*\)?` except
`\d{1,3}` is optional, so `re.search` succeeds exactly on strings
containing at least one digit. -/
def amountReSearch (s : String) : Bool :=
  s.data.any Char.isDigit

/-- Positions of every column carrying the label `c`. -/
def labelIdxs (header : List String) (c : String) : List ℕ :=
  (List.range header.length).filter (fun j => header.getD j "" == c)

/-- Whether `df[c].dropna()` keeps at least one row when `c` is a duplicated
label: `df[c]` then selects every occurrence as a DataFrame and `dropna`
keeps the rows with a value in each occurrence. -/
def jointNonEmpty (df : Df) (c : String) : Bool :=
  df.rows.any (fun r => (labelIdxs df.header c).all (fun j => !((r.get? j).join == none)))

/-- Condition under which `_detect_datetime_col` raises: its hint pass misses
and the fallback loop evaluates `pd.to_datetime(df[c], errors="coerce")` for
every column; on a duplicated label `df[c]` is a DataFrame and `to_datetime`
raises (the column-assembling path fires before any coercion). -/
def dtErrCond (df : Df) : Bool :=
  (_best_col df.header _DATE_HINTS).isNone &&
    df.header.any (fun c => decide (1 < df.header.count c))

/-- Condition under which `_detect_amount_col` raises: its hint pass misses and
the fallback loop reaches `df[c].dropna().astype(str).str` on a duplicated
label whose joint selection keeps a row (an empty selection is skipped by the
`series.empty` guard before `.str` is touched; a DataFrame has no `.str`). -/
def amtErrCond (df : Df) : Bool :=
  (_best_col df.header _AMOUNT_HINTS).isNone &&
    df.header.any (fun c => decide (1 < df.header.count c) && jointNonEmpty df c)

/-- Condition under which `_detect_category_col` raises: its hint pass misses
and the fallback loop reaches `if score > best_score` with `score` a Series —
which happens on a non-excluded duplicated label whose joint selection keeps a
row (the empty case is skipped by the `s.empty` guard). -/
def catErrCond (df : Df) (exclude : List String) : Bool :=
  let cols := df.header.filter (fun c => ¬ exclude.contains c)
  (_best_col cols _CATEGORY_HINTS).isNone &&
    cols.any (fun c => decide (1 < df.header.count c) && jointNonEmpty df c)

/-- Embedding of `_detect_amount_col`: hint pass, else the column whose non-missing
values most often look like amounts, accepted at a hit-rate of at least
3/10.  A duplicated label is only reached with an empty joint selection
(otherwise the loop raises, `amtErrCond`), and is then skipped by the
`series.empty` guard — the duplicate branch below mirrors that skip. -/
def _detect_amount_col (df : Df) : Option String :=
  match _best_col df.header _AMOUNT_HINTS with
  | some c => some c
  | none =>
      let items := df.header.filterMap (fun c =>
        if 1 < df.header.count c then none
        else
          let series := (df.colByName c).filterMap id
          if series.isEmpty then none
          else some (c, Rat.divInt (series.countP amountReSearch : ℕ) (series.length : ℕ)))
      let best := bestByScore items
      if Rat.divInt 3 10 ≤ best.2 then best.1 else none

/-- Embedding of `_detect_datetime_col`: hint pass, else the column with the best
datetime parse-success rate (over all cells, missing included), accepted
at a rate of at least 3/10. -/
def _detect_datetime_col (df : Df) : Option String :=
  match _best_col df.header _DATE_HINTS with
  | some c => some c
  | none =>
      let items := df.header.filterMap (fun c =>
        let col := df.colByName c
        if col.isEmpty then none
        else some (c, Rat.divInt (col.countP (fun x => (pyToDatetime x).isSome) : ℕ) (col.length : ℕ)))
      let best := bestByScore items
      if Rat.divInt 3 10 ≤ best.2 then best.1 else none

/-- Embedding of `_detect_category_col`: among columns not claimed by datetime/amount,
hint pass, else the column whose uniqueness ratio is closest to 1/5 (no
minimum threshold).  As in `_detect_amount_col`, a duplicated label is only
reached with an empty joint selection (otherwise the loop raises,
`catErrCond`) and is then skipped by the `s.empty` guard. -/
def _detect_category_col (df : Df) (exclude : List String) : Option String :=
  let cols := df.header.filter (fun c => ¬ exclude.contains c)
  match _best_col cols _CATEGORY_HINTS with
  | some c => some c
  | none =>
      let items := cols.filterMap (fun c =>
        if 1 < df.header.count c then none
        else
          let s := (df.colByName c).filterMap id
          if s.isEmpty then none
          else
            let ratio := Rat.divInt (s.dedup.length : ℕ) (s.length : ℕ)
            some (c, (1 : ℚ) - |ratio - Rat.divInt 1 5|))
      (bestByScore items).1

/-! ### The Table Candidate Selector
(`parse_financial_tables`, src/finance_analysis.py lines 120-162) -/

/-- A validated record of the selected table: parsed datetime, parsed
amount, and the row's original text cells (for category detection and
category display). -/
structure FinRow where
  dt : DateTime
  amt : ℚ
  cells : List (Option String)
deriving DecidableEq

/-- The result record of `parse_financial_tables`. -/
structure FinanceParseResult where
  header : List String
  rows : List FinRow
  datetime_col : String
  amount_col : String
  category_col : Option String
deriving DecidableEq

/-- Validated row count of a candidate (`len(df2)`). -/
def rowsN (r : FinanceParseResult) : ℕ :=
  r.rows.length

/-- Align a body row with the header, as `pd.DataFrame(body, columns=header)`
does once the width check has passed: short rows are padded with missing
cells (no row is wider than the header then, since the maximal row width
equals the header length). -/
def padTo (n : ℕ) (r : List (Option String)) : List (Option String) :=
  r.take n ++ List.replicate (n - r.length) none

/-- The processed header row: `header = [str(x or "").strip() for x in t[0]]`. -/
def gridHeader (headerRow : List (Option String)) : List String :=
  headerRow.map (fun x => String.mk (pyStrip (x.getD "").data))

/-- The body rows aligned with the header and cleared of fully-empty rows:
`pd.DataFrame(body, columns=header)` then `df.dropna(how="all")`. -/
def gridRows1 (header : List String) (body : List (List (Option String))) :
    List (List (Option String)) :=
  (body.map (padTo header.length)).filter (fun r => ¬ r.all (fun c => c = none))

/-- The datetime/amount coercion and category detection once both columns
are detected: rejection on a falsy label or on fewer than 3 surviving
rows; a raise on a duplicated datetime or amount label (`df2[dt_col]` /
`df2[amt_col]` then select a DataFrame); rejection when both detectors
picked the same single column (the datetime coercion overwrites it, the
amount re-coercion of the timestamp strings yields no number, and every
row is dropped). -/
def processDetected (header : List String) (rows1 : List (List (Option String)))
    (dtCol amtCol : String) : Except String (Option FinanceParseResult) :=
  -- `if not dt_col or not amt_col` (an empty label is falsy)
  if dtCol = "" ∨ amtCol = "" then Except.ok none
  else if 1 < header.count dtCol then
    Except.error
      "to assemble mappings requires at least that [year, month, day] be specified"
  else if 1 < header.count amtCol then
    Except.error "DataFrame object has no attribute map"
  else if dtCol = amtCol then Except.ok none
  else
    -- coerce both columns and drop rows missing either value
    let parsedRows := rows1.filterMap (fun r =>
      match pyToDatetime (cellAtName header r dtCol),
          _to_number (cellAtName header r amtCol) with
      | some d, some a => some (⟨d, a, r⟩ : FinRow)
      | _, _ => none)
    if parsedRows.length < 3 then Except.ok none
    else
      let df2 : Df := ⟨header, parsedRows.map (fun fr => fr.cells)⟩
      if catErrCond df2 [dtCol, amtCol] then
        Except.error "The truth value of a Series is ambiguous"
      else
        let catCol := _detect_category_col df2 [dtCol, amtCol]
        Except.ok (some ⟨header, parsedRows, dtCol, amtCol, catCol⟩)

/-- The loop body of `parse_financial_tables` for a single grid.  The
rejection pipeline rejects with `Except.ok none` (the Python `continue`):
fewer than 2 rows; fewer than 2 non-empty header cells; fewer than 3 body
rows after dropping fully-empty rows; missing datetime or amount column;
fewer than 3 rows after datetime/amount coercion
(`processDetected`).  The pipeline raises (`Except.error`, which aborts
the whole call) where the pandas calls do: `pd.DataFrame(body,
columns=header)` when the maximal body-row width differs from the header
length; the detector fallbacks on duplicated column labels (`dtErrCond`,
`amtErrCond`, and `catErrCond` inside `processDetected`); and the
datetime/amount coercions on a duplicated detected label (a DataFrame has
no `map` before pandas 2.1; from 2.1 on the elementwise map leaves no
parseable amount and the grid is rejected instead — the raise is what is
modelled). -/
def processGrid (t : List (List (Option String))) :
    Except String (Option FinanceParseResult) :=
  match t with
  | [] => Except.ok none
  | headerRow :: body =>
      -- `if not t or len(t) < 2`
      if body.isEmpty then Except.ok none
      else
        let header := gridHeader headerRow
        if (header.filter (fun h => ¬ h = "")).length < 2 then Except.ok none
        else
          -- `pd.DataFrame(body, columns=header)`
          let width := (body.map List.length).foldl Max.max 0
          if ¬ width = header.length then
            Except.error (toString header.length ++ " columns passed, passed data had " ++
              toString width ++ " columns")
          else
            let rows1 := gridRows1 header body
            if rows1.length < 3 then Except.ok none
            else
              let df : Df := ⟨header, rows1⟩
              if dtErrCond df then
                Except.error
                  "to assemble mappings requires at least that [year, month, day] be specified"
              else if amtErrCond df then
                Except.error "Can only use .str accessor with string values"
              else
                match _detect_datetime_col df, _detect_amount_col df with
                | some dtCol, some amtCol => processDetected header rows1 dtCol amtCol
                | _, _ => Except.ok none

/-- The running-best selection over an already-extracted list of surviving
candidates: thread `(best, best_rows)` through them, replacing only on a
strictly greater validated row count. -/
def runBest : List FinanceParseResult → Option FinanceParseResult → ℕ → Option FinanceParseResult
  | [], best, _ => best
  | c :: rest, best, bestRows =>
      if bestRows < rowsN c then runBest rest (some c) (rowsN c)
      else runBest rest best bestRows

/-- The loop of `parse_financial_tables` over the incoming grids: each grid
is processed in order, a raise propagates immediately (the loop has no
try/except), and surviving candidates update the running best on a
strictly greater validated row count. -/
def runBestE : List (List (List (Option String))) → Option FinanceParseResult → ℕ →
    Except String (Option FinanceParseResult)
  | [], best, _ => Except.ok best
  | t :: rest, best, bestRows =>
      match processGrid t with
      | Except.error e => Except.error e
      | Except.ok none => runBestE rest best bestRows
      | Except.ok (some c) =>
          if bestRows < rowsN c then runBestE rest (some c) (rowsN c)
          else runBestE rest best bestRows

/-- Embedding of `parse_financial_tables` (src/finance_analysis.py lines
120-162). -/
def parse_financial_tables (tables : List (List (List (Option String)))) :
    Except String (Option FinanceParseResult) :=
  runBestE tables none 0

/-- The surviving candidate of a grid, when its processing neither raises
nor rejects. -/
def okSomeGrid (t : List (List (Option String))) : Option FinanceParseResult :=
  match processGrid t with
  | Except.ok (some r) => some r
  | _ => none

/-- The worked scenario grid of the spec (§8). -/
def G1 : List (List (Option String)) :=
  [[some "Date", some "Amount", some "Category"],
   [some "2024-01-05", some "-50.00", some "Food"],
   [some "2024-01-06", some "200.00", some "Salary"],
   [some "2024-02-01", some "-30.00", some "Food"]]

/-- The parse result the scenario grid produces. -/
def rExpected : FinanceParseResult :=
  { header := ["Date", "Amount", "Category"]
    rows :=
      [⟨⟨2024, 1, 5, 0, 0, 0⟩, -50, [some "2024-01-05", some "-50.00", some "Food"]⟩,
       ⟨⟨2024, 1, 6, 0, 0, 0⟩, 200, [some "2024-01-06", some "200.00", some "Salary"]⟩,
       ⟨⟨2024, 2, 1, 0, 0, 0⟩, -30, [some "2024-02-01", some "-30.00", some "Food"]⟩]
    datetime_col := "Date"
    amount_col := "Amount"
    category_col := some "Category" }

example : parse_financial_tables [G1] = Except.ok (some rExpected) := by decide

/-- A ragged grid: the maximal body-row width (1) differs from the header
length (2), so `pd.DataFrame(body, columns=header)` raises. -/
def Gragged : List (List (Option String)) :=
  [[some "A", some "B"], [some "x"], [some "y"], [some "z"]]

/-- A grid whose hinted datetime label is duplicated: the coercion
`pd.to_datetime(df2["Date"], ...)` receives a two-column DataFrame and
raises. -/
def Gdup : List (List (Option String)) :=
  [[some "Date", some "Date", some "Amount"],
   [some "2024-01-05", some "2024-01-05", some "1.00"],
   [some "2024-01-06", some "2024-01-06", some "2.00"],
   [some "2024-01-07", some "2024-01-07", some "3.00"]]

example : processGrid Gragged =
    Except.error "2 columns passed, passed data had 1 columns" := by decide

example : processGrid Gdup =
    Except.error
      "to assemble mappings requires at least that [year, month, day] be specified" := by decide

/-! ### Financial Analytics Engine
(src/finance_analysis.py lines 165-251) -/

/-- Rational addition written on raw numerator/denominator data: equal to
`(· + ·)` (lemma `qAdd_eq_add` below) but evaluates by kernel reduction. -/
def qAdd (a b : ℚ) : ℚ :=
  Rat.divInt (a.num * (b.den : ℤ) + b.num * (a.den : ℤ)) ((a.den : ℤ) * (b.den : ℤ))

/-- Sum of a list of rationals (`Series.sum()`). -/
def sumQ (l : List ℚ) : ℚ :=
  l.foldl qAdd 0

/-- The amount column of a parse result, as floats (`df[amt].astype(float)`). -/
def amounts (p : FinanceParseResult) : List ℚ :=
  p.rows.map (fun r => r.amt)

/-- The dictionary returned by `totals`. -/
structure Totals where
  rows : ℕ
  sum : ℚ
  income_sum_pos : ℚ
  expense_sum_neg : ℚ
  mean : ℚ

/-- Embedding of `totals` (src/finance_analysis.py lines 182-191).
`mean` on an empty series is NaN in pandas; the rational model yields 0
there (division by zero); no claim depends on that corner.  The sums are
exact rationals — the ideal values of the program's float64 sums; the
float arithmetic itself is modelled by `roundF64`/`fsum` below, where the
difference matters. -/
def totals (p : FinanceParseResult) : Totals :=
  let s := amounts p
  { rows := p.rows.length
    sum := sumQ s
    income_sum_pos := sumQ (s.filter (fun x => 0 < x))
    expense_sum_neg := sumQ (s.filter (fun x => x < 0))
    mean := sumQ s / (s.length : ℚ) }

/-- The dictionary returned by `advanced_summary`.  The sample standard
deviation is carried as its square (`variance`): the square root leaves
the rational model, and no claim mentions `std`. -/
structure AdvancedSummary where
  rows : ℚ
  net_sum : ℚ
  abs_sum : ℚ
  income_sum_pos : ℚ
  expense_sum_neg : ℚ
  mean : ℚ
  median : ℚ
  variance : ℚ
  min : ℚ
  max : ℚ
  income_count : ℚ
  expense_count : ℚ

/-- Median (`Series.median()`) of a list of rationals: middle of the sorted values,
or the average of the two middle values. -/
def medianQ (l : List ℚ) : ℚ :=
  let sorted := List.insertionSort (· ≤ ·) l
  let n := l.length
  if n = 0 then 0
  else if n % 2 = 1 then sorted.getD (n / 2) 0
  else (sorted.getD (n / 2 - 1) 0 + sorted.getD (n / 2) 0) / 2

/-- Embedding of `advanced_summary` (src/finance_analysis.py lines
215-235): every guard `if len(...) else 0.0` of the source is kept.  As
in `totals`, the sums are the exact rational values; `fsum` below models
the program's float64 summation. -/
def advanced_summary (p : FinanceParseResult) : AdvancedSummary :=
  let s := amounts p
  let pos := s.filter (fun x => 0 < x)
  let neg := s.filter (fun x => x < 0)
  { rows := (s.length : ℚ)
    net_sum := sumQ s
    abs_sum := sumQ (s.map (fun x => |x|))
    income_sum_pos := if pos.length ≠ 0 then sumQ pos else 0
    expense_sum_neg := if neg.length ≠ 0 then sumQ neg else 0
    mean := if s.length ≠ 0 then sumQ s / (s.length : ℚ) else 0
    median := if s.length ≠ 0 then medianQ s else 0
    variance :=
      if 1 < s.length then
        (sumQ (s.map (fun x => (x - sumQ s / (s.length : ℚ)) ^ 2))) / ((s.length : ℚ) - 1)
      else 0
    min := if s.length ≠ 0 then s.foldl Min.min (s.getD 0 0) else 0
    max := if s.length ≠ 0 then s.foldl Max.max (s.getD 0 0) else 0
    income_count := (pos.length : ℚ)
    expense_count := (neg.length : ℚ) }

/-! ### Float64 rounding
The analytics run on numpy float64 values.  The exact rationals above
describe the ideal arithmetic; the model below of IEEE-754 binary64
rounding (round to nearest, ties to even; normal range — the in-scope
amounts are nowhere near overflow or subnormals) captures where the
program's sums differ from it. -/

/-- Multiply a rational by an integer power of two, written on raw
numerator/denominator data (kernel-reducible). -/
def mulPow2 (q : ℚ) (k : ℤ) : ℚ :=
  if 0 ≤ k then Rat.divInt (q.num * ((2 ^ k.toNat : ℕ) : ℤ)) (q.den : ℤ)
  else Rat.divInt q.num ((q.den * 2 ^ (-k).toNat : ℕ) : ℤ)

/-- Binary scaling loop: brings a positive rational into `[1, 2)` and
reports the exponent moved. -/
def floorLog2Aux : ℕ → ℚ → ℤ → ℤ
  | 0, _, e => e
  | fuel + 1, q, e =>
      if q < 1 then floorLog2Aux fuel (mulPow2 q 1) (e - 1)
      else if 2 ≤ q then floorLog2Aux fuel (mulPow2 q (-1)) (e + 1)
      else e

/-- Floor of the base-2 logarithm of a positive rational (the fuel covers
the double range many times over). -/
def floorLog2Q (q : ℚ) : ℤ :=
  floorLog2Aux 4400 q 0

/-- Round a positive rational to the nearest IEEE-754 binary64 value: 53
significant bits, ties to even. -/
def roundPosF64 (q : ℚ) : ℚ :=
  let e := floorLog2Q q
  let scaled := mulPow2 q (52 - e)
  let mfl : ℤ := ((scaled.num.toNat / scaled.den : ℕ) : ℤ)
  let m : ℤ :=
    if scaled < Rat.divInt (2 * mfl + 1) 2 then mfl
    else if Rat.divInt (2 * mfl + 1) 2 < scaled then mfl + 1
    else if mfl % 2 = 0 then mfl else mfl + 1
  mulPow2 (Rat.divInt m 1) (e - 52)

/-- Round a rational to the nearest binary64 value. -/
def roundF64 (q : ℚ) : ℚ :=
  if q = 0 then 0
  else if q < 0 then -roundPosF64 (-q)
  else roundPosF64 q

/-- Binary64 addition: the exact sum, rounded. -/
def fadd (a b : ℚ) : ℚ :=
  roundF64 (qAdd a b)

/-- The float64 sum of a series as `np.add.reduce` computes it at the
in-scope lengths (and as plain sequential accumulation computes it): a
left fold of rounded additions from the first element. -/
def fsum : List ℚ → ℚ
  | [] => 0
  | x :: xs => xs.foldl fadd x

/-- The float64 values of the parsed amounts: `float(...)` rounds each
exact decimal value to the nearest double. -/
def famounts (p : FinanceParseResult) : List ℚ :=
  (amounts p).map roundF64

example : roundF64 (Rat.divInt 1 10) =
    Rat.divInt 3602879701896397 36028797018963968 := by decide

example : roundF64 (Rat.divInt (-3) 10) =
    Rat.divInt (-5404319552844595) 18014398509481984 := by decide

example : fadd (roundF64 (Rat.divInt 1 10)) (roundF64 (Rat.divInt 1 10)) =
    Rat.divInt 3602879701896397 18014398509481984 := by decide

/-- The bins of `resample(freq).sum()`, modelled per the pandas library's
documented behavior: bins run consecutively from the earliest to the
latest occupied period at the given frequency — empty intermediate bins
are synthesized with sum 0 — and each bin sums the amounts whose
timestamps fall in it; bins are labelled here by their `periodIdx`
number.  The extremes fold over every row's period, seeded with `r0`'s
(the head row).  The third component is `abs_total`, the absolute value
of the bin total. -/
def aggBuckets (freq : Freq) (rows : List FinRow) (r0 : FinRow) : List (ℤ × ℚ × ℚ) :=
  let ks := rows.map (fun r => periodIdx freq r.dt)
  let kmin := ks.foldl Min.min (periodIdx freq r0.dt)
  let kmax := ks.foldl Max.max (periodIdx freq r0.dt)
  (List.range (kmax - kmin + 1).toNat).map (fun (i : ℕ) =>
    let k : ℤ := kmin + (i : ℤ)
    let tot := sumQ ((rows.filter (fun r => periodIdx freq r.dt = k)).map (fun r => r.amt))
    (k, tot, |tot|))

/-- Embedding of `aggregate_finance` (src/finance_analysis.py lines
165-179): sort by the datetime column (irrelevant to the bins), resample
at `freq`, sum per bin, and add the absolute-value column. -/
def aggregate_finance (p : FinanceParseResult) (freq : Freq) : List (ℤ × ℚ × ℚ) :=
  match p.rows with
  | [] => []
  | r0 :: rest => aggBuckets freq (r0 :: rest) r0

/-- The period index of every row, at the given granularity. -/
def occupiedPeriods (p : FinanceParseResult) (freq : Freq) : List ℤ :=
  p.rows.map (fun r => periodIdx freq r.dt)

/-- The consecutive integers from `a` to `b` inclusive. -/
def consecRange (a b : ℤ) : List ℤ :=
  (List.range (b - a + 1).toNat).map (fun (i : ℕ) => a + (i : ℤ))

/-- Minimum of a list of integers (0 on the empty list). -/
def listMinD : List ℤ → ℤ
  | [] => 0
  | x :: xs => xs.foldl Min.min x

/-- Maximum of a list of integers (0 on the empty list). -/
def listMaxD : List ℤ → ℤ
  | [] => 0
  | x :: xs => xs.foldl Max.max x

example : (totals rExpected).rows = 3 := by decide
example : (totals rExpected).sum = 120 := by decide
example : (totals rExpected).income_sum_pos = 200 := by decide
example : (totals rExpected).expense_sum_neg = -80 := by decide
example : aggregate_finance rExpected Freq.M = [(24288, 150, 150), (24289, -30, 30)] := by decide

/-- Lexicographic sort order by a primary key `f` with ties resolved by a
secondary index `g`: this is how a stable sort by `f` is realized when the
`g`-values are the pre-sort positions. -/
def keyLe {α : Type} {β : Type} [LinearOrder β] (f : α → β) (g : α → ℕ) (a b : α) : Prop :=
  f a < f b ∨ (f a = f b ∧ g a ≤ g b)

instance {α β : Type} [LinearOrder β] (f : α → β) (g : α → ℕ) : DecidableRel (keyLe f g) :=
  fun _ _ => inferInstanceAs (Decidable (_ ∨ _))

instance keyLe_total {α β : Type} [LinearOrder β] (f : α → β) (g : α → ℕ) :
    IsTotal α (keyLe f g) := by
  constructor
  intro a b
  rcases lt_trichotomy (f a) (f b) with h | h | h
  · exact Or.inl (Or.inl h)
  · rcases Nat.le_total (g a) (g b) with h2 | h2
    · exact Or.inl (Or.inr ⟨h, h2⟩)
    · exact Or.inr (Or.inr ⟨h.symm, h2⟩)
  · exact Or.inr (Or.inl h)

instance keyLe_trans {α β : Type} [LinearOrder β] (f : α → β) (g : α → ℕ) :
    IsTrans α (keyLe f g) := by
  constructor
  rintro a b c (hab | ⟨hab, hab2⟩) (hbc | ⟨hbc, hbc2⟩)
  · exact Or.inl (hab.trans hbc)
  · exact Or.inl (hbc ▸ hab)
  · exact Or.inl (hab ▸ hbc)
  · exact Or.inr ⟨hab.trans hbc, hab2.trans hbc2⟩

/-- Seconds-since-epoch-style linearization of a timestamp, the sort key
for `sort_values(datetime_col)`. -/
def secIndex (dt : DateTime) : ℤ :=
  (hourIndex dt * 60 + (dt.minute : ℤ)) * 60 + (dt.second : ℤ)

/-- A row of the frames returned by `top_transactions`: its position in
the datetime-sorted base frame, the datetime and amount, and the category
cell when the category column is carried along. -/
structure TxEntry where
  pos : ℕ
  dt : DateTime
  amt : ℚ
  cat : Option (Option String)
deriving DecidableEq

/-- The category cell carried by `top_transactions`' column selection
`cols = [dt, amt] (+ category if present and truthy)`. -/
def catCell (p : FinanceParseResult) (r : FinRow) : Option (Option String) :=
  match p.category_col with
  | some c => if ¬ c = "" ∧ p.header.contains c then some (cellAtName p.header r.cells c) else none
  | none => none

/-- The base frame `df[cols].copy().sort_values(dt)`: the rows sorted by datetime.
The tie order among equal datetimes is a modelling choice: the sort here
is stable (original row order, realized by sorting on the (datetime,
original index) pair), while the source's `sort_values` default
`kind="quicksort"` is documented by pandas as not stable — the program
guarantees no particular tie order.  Each entry records its position in
the sorted frame. -/
def baseOf (p : FinanceParseResult) : List TxEntry :=
  let sorted := List.insertionSort (keyLe (fun x => secIndex x.2.dt) (fun x => x.1)) p.rows.enum
  sorted.enum.map (fun pe => ⟨pe.1, pe.2.2.dt, pe.2.2.amt, catCell p pe.2.2⟩)

/-- Embedding of `top_transactions` (src/finance_analysis.py lines
238-251): positive rows sorted by amount descending, negative rows sorted
by amount ascending, each truncated to `n`.  As in `baseOf`, equal-amount
tie order is a modelling choice (stable, via the position index); the
source's `sort_values(..., ascending=...)` default `kind="quicksort"`
gives no tie-order guarantee. -/
def top_transactions (p : FinanceParseResult) (n : ℕ) : List TxEntry × List TxEntry :=
  let base := baseOf p
  ((List.insertionSort (keyLe (fun e => -e.amt) TxEntry.pos) (base.filter (fun e => 0 < e.amt))).take n,
   (List.insertionSort (keyLe TxEntry.amt TxEntry.pos) (base.filter (fun e => e.amt < 0))).take n)

example :
    top_transactions rExpected 8 =
      ([⟨1, ⟨2024, 1, 6, 0, 0, 0⟩, 200, some (some "Salary")⟩],
       [⟨0, ⟨2024, 1, 5, 0, 0, 0⟩, -50, some (some "Food")⟩,
        ⟨2, ⟨2024, 2, 1, 0, 0, 0⟩, -30, some (some "Food")⟩]) := by decide

/-! ### Passage chunking (`chunk_text`, src/pdf_utils.py lines 45-63) -/

/-- The `while start < len(text)` loop of `chunk_text`, indexed by fuel:
`none` means the fuel ran out before the loop finished.  One iteration:
`end = min(len, start + chunk_size)`; append `text[start:end]`; stop when
`end == len`; else `start = max(0, end - overlap)` (natural subtraction
realizes the `max(0, ·)`). -/
def chunkLoop (t : List Char) (cs ov : ℕ) : ℕ → ℕ → List String → Option (List String)
  | 0, _, _ => none
  | fuel + 1, start, acc =>
      let e := Min.min t.length (start + cs)
      let acc2 := acc ++ [String.mk ((t.drop start).take (e - start))]
      if e = t.length then some acc2
      else chunkLoop t cs ov fuel (e - ov) acc2

/-- Embedding of `chunk_text`: raise (`Except.error`) on a non-positive
chunk size or a negative overlap; collapse whitespace; empty input gives
the empty sequence; else run the window loop with fuel `|text| + 1`,
which suffices whenever `overlap < chunk_size` (each step then advances
`start` by at least one).  `Except.ok none` means the fuel was exhausted:
the Python loop does not terminate in `|text|` steps (see claim C4 for
inputs on which it never terminates at all). -/
def chunk_text (text : String) (chunkSize overlap : ℤ) : Except String (Option (List String)) :=
  if chunkSize ≤ 0 then Except.error "chunk_size must be > 0"
  else if overlap < 0 then Except.error "overlap must be >= 0"
  else
    let t := (pySplitJoin text).data
    if t.isEmpty then Except.ok (some [])
    else Except.ok (chunkLoop t chunkSize.toNat overlap.toNat (t.length + 1) 0 [])

example : chunk_text "hello  world" 5 0 = Except.ok (some ["hello", " worl", "d"]) := by decide
example : chunk_text "abcdef" 4 2 = Except.ok (some ["abcd", "cdef"]) := by decide
example : chunk_text "abc" 0 0 = Except.error "chunk_size must be > 0" := by decide
example : chunk_text "abc" 3 (-1) = Except.error "overlap must be >= 0" := by decide
example : chunk_text "" 1200 150 = Except.ok (some []) := by decide
-- overlap ≥ chunk_size: the loop re-reads position 0 forever; the fuelled
-- run exhausts its fuel
example : chunk_text "ab" 1 1 = Except.ok none := by decide

/-! ### The Query Intent Router and the oracle dispatch
(src/rag.py) -/

/-- Python `s.split(" ")`: split on every single space, keeping empty
pieces. -/
def splitOnSpaceAux : List Char → List Char → List (List Char)
  | [], cur => [cur.reverse]
  | c :: rest, cur =>
      if c = ' ' then cur.reverse :: splitOnSpaceAux rest []
      else splitOnSpaceAux rest (c :: cur)

def pySplitOnSpace (s : String) : List String :=
  (splitOnSpaceAux s.data []).map String.mk

/-- A retrieved (passage, similarity score) pair. -/
structure RetrievedPassage where
  text : String
  score : ℚ
deriving DecidableEq

def _COMMON_CORRECTIONS : List (String × String) :=
  [("wther", "whether"),
   ("wether", "whether"),
   ("finacial", "financial"),
   ("finanicial", "financial"),
   ("summery", "summary"),
   ("sumarize", "summarize"),
   ("summarise", "summarize")]

/-- Embedding of `normalize_user_question` (src/rag.py lines 70-78):
collapse whitespace, then apply the fixed token-level spelling
corrections (looked up on the lowercased token, original kept when
absent). -/
def normalize_user_question (question : String) : String :=
  let q := pySplitJoin question
  if q = "" then ""
  else
    String.intercalate " " ((pySplitOnSpace q).map (fun t =>
      match _COMMON_CORRECTIONS.lookup (lowerStr t) with
      | some r => r
      | none => t))

/-- Embedding of `_wants_summary` (src/rag.py lines 81-83). -/
def _wants_summary (q : String) : Bool :=
  let ql := lowerStr q
  ["summarize", "summary", "summarise"].any (fun k => strContains ql k)

/-- Embedding of `_summary_is_underspecified` (src/rag.py lines 86-92):
a summarization request with none of the scope markers. -/
def _summary_is_underspecified (q : String) : Bool :=
  let ql := lowerStr q
  if ¬ _wants_summary ql then false
  else
    ¬ (["page", "pages", "section", "chapter", "table", "about", "focus on", "only"].any
        (fun m => strContains ql m))

/-- Embedding of `_looks_like_financial_concepts_question` (src/rag.py lines 124-131). -/
def _looks_like_financial_concepts_question (q : String) : Bool :=
  let ql := lowerStr q
  strContains ql "financial concept" || strContains ql "financial concepts" ||
    (strContains ql "financial" &&
      (["concept", "concepts", "terms", "topics"].any (fun w => strContains ql w)))

def _FINANCE_TERMS : List String :=
  ["revenue", "income", "expense", "expenses", "cost", "costs", "profit", "loss",
   "balance", "debit", "credit", "interest", "tax", "invoice", "payment",
   "transaction", "cash flow", "budget", "assets", "liabilities", "equity",
   "fee", "charge", "refund", "amount", "total", "subtotal", "account", "statement"]

/-- Python `\w` (ASCII scope suffices for this code base). -/
def isWordChar (c : Char) : Bool :=
  c.isAlphanum || c = '_'

/-- Consume the maximal run of thousands groups `,ddd`; return their
count and the remainder. -/
def takeGroups : List Char → ℕ × List Char
  | ',' :: a :: b :: c :: rest =>
      if a.isDigit && b.isDigit && c.isDigit then
        let p := takeGroups rest
        (p.1 + 1, p.2)
      else (0, ',' :: a :: b :: c :: rest)
  | l => (0, l)

/-- Consume exactly `k` digits. -/
def tryDigits : ℕ → List Char → Option (List Char)
  | 0, rest => some rest
  | k + 1, c :: rest => if c.isDigit then tryDigits k rest else none
  | _ + 1, [] => none

/-- After `\d{1,3}(?:,\d{3})+` the match succeeds iff at least one group
was read and either a second group exists (the regex can backtrack to one
group fewer, leaving a non-word `,` at the boundary) or the remainder
starts at a word boundary; the optional `(?:\.\d+)?` never decides
success (a skipped `.` is itself a non-word boundary). -/
def numTailOk (rest : List Char) : Bool :=
  let p := takeGroups rest
  1 ≤ p.1 && (2 ≤ p.1 || (match p.2 with
    | [] => true
    | c :: _ => ¬ isWordChar c))

/-- Search for `_MONEY_RE = (?:[$€£]\s*\d|\b\d{1,3}(?:,\d{3})+(?:\.\d+)?\b)`:
scan every position, trying the currency alternative and the
word-bounded grouped-number alternative (all 1-3 leading digit counts). -/
def moneySearchAux : Option Char → List Char → Bool
  | _, [] => false
  | prev, c :: rest =>
      ((c = '$' ∨ c = '€' ∨ c = '£') &&
        (match rest.dropWhile isWs with
         | d :: _ => d.isDigit
         | [] => false))
      || (c.isDigit &&
            (match prev with
             | none => true
             | some pc => ¬ isWordChar pc) &&
            ([1, 2, 3].any (fun k =>
              match tryDigits k (c :: rest) with
              | some r => numTailOk r
              | none => false)))
      || moneySearchAux (some c) rest

def _MONEY_RE_search (s : String) : Bool :=
  moneySearchAux none s.data

/-- Python-style order-preserving de-duplication (first occurrence kept). -/
def pyDedupe : List String → List String → List String
  | [], _ => []
  | x :: rest, seen =>
      if seen.contains x then pyDedupe rest seen
      else x :: pyDedupe rest (x :: seen)

/-- Embedding of `_extract_financial_concepts_from_context` (src/rag.py
lines 134-153): scan the joined passages for the fixed vocabulary (in
vocabulary order) and for a currency-amount regex hit, de-duplicated. -/
def _extract_financial_concepts_from_context (context_passages : List String) : List String :=
  let joined := String.intercalate "\n" context_passages
  let jl := lowerStr joined
  let found := _FINANCE_TERMS.filter (fun term => strContains jl term)
  let found2 := if _MONEY_RE_search joined then found ++ ["currency amounts"] else found
  pyDedupe found2 []

/-- Embedding of `_build_llm_prompt` (src/rag.py lines 156-168). -/
def _build_llm_prompt (question : String) (context_passages : List String) : String :=
  let context := String.intercalate "\n\n" context_passages
  "You are a helpful PDF RAG assistant.\n"
    ++ "- Use the provided context to answer questions about the PDF.\n"
    ++ "- You MAY use general knowledge for definitions or explanations, but do NOT invent facts that are not supported by the context.\n"
    ++ "- When you cite something from the PDF, prefer quoting short phrases and keep the [page N] tags if present.\n"
    ++ "- Only ask clarifying questions when the user request is genuinely underspecified.\n"
    ++ "\n"
    ++ "Context:\n" ++ context ++ "\n\n"
    ++ "User question: " ++ question ++ "\n"
    ++ "Answer:"

/-- Python truthiness of an optional string (`if ans:`). -/
def truthy (o : Option String) : Bool :=
  match o with
  | some a => ¬ a = ""
  | none => false

/-- The three external answer oracles and the active-provider setting,
as the environment of `answer_with_llm_or_extract`: `gemini`/`ollama`
return (answer?, error?), `openai` returns answer? (src/rag.py lines
171-251; network behavior abstracted as functions of the prompt). -/
structure OracleEnv where
  provider : String
  gemini : String → Option String × Option String
  openai : String → Option String
  ollama : String → Option String × Option String

/-- The fixed clarifying question of the ClarifyScope terminal state. -/
def clarifyScopeMsg : String :=
  "Do you want a summary of the whole PDF, or a specific section/pages? Also, should it be short (5 bullets) or detailed (1–2 paragraphs)?"

/-- The templated DirectConceptAnswer message. -/
def conceptsMsg (concepts : List String) : String :=
  "Yes — I see financial-related content in the retrieved parts of the PDF. "
    ++ "Examples of financial concepts/terms mentioned: "
    ++ String.intercalate ", " (concepts.take 10)
    ++ ". If you want, tell me whether you mean *accounting terms*, *financial statements*, or *finance theory*, and I’ll narrow it down."

/-- The extractive fallback tail of `answer_with_llm_or_extract`
(src/rag.py lines 295-314); `calls` counts oracle invocations made so
far (instrumentation of the embedding, threaded unchanged). -/
def extractiveFallback (provider : String) (retrieved : List RetrievedPassage)
    (llm_error : Option String) (calls : ℕ) : String × Bool × ℕ :=
  if retrieved.isEmpty then ("I couldn\u0027t find anything relevant in the PDF.", false, calls)
  else
    let top := String.intercalate "\n\n" ((retrieved.take 3).map (fun p => p.text))
    if provider = "None" ∨ provider = "" then
      ("No LLM provider selected. Choose one (Gemini / OpenAI / Ollama) in the sidebar. For now, here are the most relevant passages:\n\n"
        ++ top, false, calls)
    else
      let base := provider ++ " did not return an answer. Check your settings in the sidebar."
      let withErr :=
        match llm_error with
        | some e => base ++ "\n\nError: " ++ e
        | none => base
      (withErr ++ "\n\nRelevant passages:\n\n" ++ top, false, calls)

/-- Embedding of `answer_with_llm_or_extract` (src/rag.py lines 254-314),
returning (answer, used_llm, number of oracle calls made).  The branch
order of the source is kept: ClarifyScope, then DirectConceptAnswer, then
dispatch to the configured provider with the extractive fallback. -/
def answer_with_llm_or_extract (env : OracleEnv) (question : String)
    (retrieved : List RetrievedPassage) : String × Bool × ℕ :=
  let q := normalize_user_question question
  let context := retrieved.map (fun p => p.text)
  if _summary_is_underspecified q then (clarifyScopeMsg, false, 0)
  else
    let conceptsBranch :=
      if _looks_like_financial_concepts_question q then
        let concepts := _extract_financial_concepts_from_context context
        if ¬ concepts.isEmpty then some (conceptsMsg concepts, false, 0) else none
      else none
    match conceptsBranch with
    | some r => r
    | none =>
        let prompt := _build_llm_prompt (if q = "" then question else q) context
        if env.provider = "Gemini" then
          let g := env.gemini prompt
          if truthy g.1 then (g.1.getD "", true, 1)
          else extractiveFallback env.provider retrieved g.2 1
        else if env.provider = "OpenAI" then
          let a := env.openai prompt
          if truthy a then (a.getD "", true, 1)
          else extractiveFallback env.provider retrieved
            (some "OpenAI call failed. Check your API key.") 1
        else if env.provider = "Ollama" then
          let g := env.ollama prompt
          if truthy g.1 then (g.1.getD "", true, 1)
          else extractiveFallback env.provider retrieved g.2 1
        else extractiveFallback env.provider retrieved none 0

example :
    answer_with_llm_or_extract
      ⟨"Gemini", fun _ => (some "hi", none), fun _ => some "hi", fun _ => (some "hi", none)⟩
      "summarize" [⟨"some passage", 1⟩] = (clarifyScopeMsg, false, 0) := by decide
example :
    answer_with_llm_or_extract
      ⟨"Gemini", fun _ => (some "hi", none), fun _ => some "hi", fun _ => (some "hi", none)⟩
      "summarize page 3" [] = ("hi", true, 1) := by decide

/-! ### The Passage Index (`FaissIndex`, src/rag.py lines 29-56) -/

/-- The state of a `FaissIndex`: the embedding dimensionality fixed at
construction, the vectors held by the FAISS flat index, and the parallel
passage list. -/
structure FaissIndex where
  dim : ℕ
  vectors : List (List ℚ)
  passages : List String
deriving DecidableEq

/-- Construction, `FaissIndex.__init__(dim)`. -/
def faissInit (dim : ℕ) : FaissIndex :=
  ⟨dim, [], []⟩

/-- Embedding of `FaissIndex.size`. -/
def FaissIndex.size (s : FaissIndex) : ℕ :=
  s.passages.length

/-- Embedding of `FaissIndex.add` (src/rag.py lines 41-45): raise on a
count mismatch (before anything is mutated), else append to both the
vector store and the passage list. -/
def FaissIndex.add (s : FaissIndex) (vectors : List (List ℚ)) (passages : List String) :
    Except String FaissIndex :=
  if passages.length ≠ vectors.length then
    Except.error "passages and vectors must have same length"
  else
    Except.ok { s with vectors := s.vectors ++ vectors, passages := s.passages ++ passages }

/-- Inner product of two vectors. -/
def dotQ (a b : List ℚ) : ℚ :=
  sumQ ((a.zip b).map (fun p => p.1 * p.2))

/-- Embedding of `FaissIndex.search` (src/rag.py lines 47-56), as a state
transition that returns the state unchanged together with the results:
FAISS ranks all stored vectors by inner product with the query
(descending, ties by lower index first, modelled per the library's
documented behavior), returns the `top_k` best indices (padding with -1
when fewer exist), and the Python wrapper keeps only in-range indices,
pairing each with its passage. -/
def FaissIndex.searchOp (s : FaissIndex) (q : List ℚ) (topK : ℕ) :
    FaissIndex × List RetrievedPassage :=
  let scored := s.vectors.enum.map (fun iv => (dotQ q iv.2, iv.1))
  let ranked := (List.insertionSort (keyLe (fun x : ℚ × ℕ => -x.1) (fun x => x.2)) scored).take topK
  (s, ranked.filterMap (fun si =>
    (s.passages.get? si.2).map (fun t => ⟨t, si.1⟩)))

/-- The states a `FaissIndex` can reach: freshly constructed, or the
result of a successful `add`. -/
inductive FaissReachable : FaissIndex → Prop
  | init (dim : ℕ) : FaissReachable (faissInit dim)
  | step (s : FaissIndex) (v : List (List ℚ)) (p : List String) (s' : FaissIndex) :
      FaissReachable s → s.add v p = Except.ok s' → FaissReachable s'

/-- A fixture with occupied periods January 2024 and March 2024 but no
February row: monthly resampling synthesizes the empty February bucket. -/
def pJanMar : FinanceParseResult :=
  { header := ["Date", "Amount"]
    rows :=
      [⟨⟨2024, 1, 5, 0, 0, 0⟩, 10, [some "2024-01-05", some "10"]⟩,
       ⟨⟨2024, 1, 6, 0, 0, 0⟩, 5, [some "2024-01-06", some "5"]⟩,
       ⟨⟨2024, 3, 1, 0, 0, 0⟩, 7, [some "2024-03-01", some "7"]⟩]
    datetime_col := "Date"
    amount_col := "Amount"
    category_col := none }

example : aggregate_finance pJanMar Freq.M = [(24288, 15, 15), (24289, 0, 0), (24290, 7, 7)] := by
  decide

/-! ### Helper lemmas -/

theorem qAdd_eq_add (a b : ℚ) : qAdd a b = a + b := by
  have ha : (a.den : ℤ) ≠ 0 := Int.natCast_ne_zero.mpr a.den_nz
  have hb : (b.den : ℤ) ≠ 0 := Int.natCast_ne_zero.mpr b.den_nz
  rw [qAdd, ← Rat.divInt_add_divInt _ _ ha hb, Rat.num_divInt_den, Rat.num_divInt_den]

theorem foldl_qAdd_eq (l : List ℚ) : ∀ init : ℚ, l.foldl qAdd init = init + l.sum := by
  induction l with
  | nil => intro init; simp
  | cons x xs ih =>
      intro init
      simp only [List.foldl_cons, ih, qAdd_eq_add, List.sum_cons]
      ring

theorem sumQ_eq_sum (l : List ℚ) : sumQ l = l.sum := by
  rw [sumQ, foldl_qAdd_eq, zero_add]

/-- Splitting a sum of nonzero rationals into its positive and negative
parts. -/
theorem sum_filter_pos_add_neg (l : List ℚ) (h : ∀ x ∈ l, x ≠ 0) :
    (l.filter (fun x => 0 < x)).sum + (l.filter (fun x => x < 0)).sum = l.sum := by
  induction l with
  | nil => simp
  | cons x xs ih =>
      have hx : x ≠ 0 := h x (List.mem_cons_self x xs)
      have ih2 := ih (fun y hy => h y (List.mem_cons_of_mem x hy))
      rcases lt_or_gt_of_ne hx with hneg | hpos
      · have h1 : ¬ (0 < x) := not_lt.mpr hneg.le
        simp only [List.filter_cons, decide_eq_true_eq, h1, if_false, hneg, if_true,
          List.sum_cons]
        rw [← ih2]
        ring
      · have h1 : ¬ (x < 0) := not_lt.mpr hpos.le
        simp only [List.filter_cons, decide_eq_true_eq, h1, if_false, hpos, if_true,
          List.sum_cons]
        rw [← ih2]
        ring

/-- Once the running best is occupied it never returns to `none`. -/
theorem runBest_some_of_some :
    ∀ (l : List FinanceParseResult) (c : FinanceParseResult) (br : ℕ),
      runBest l (some c) br ≠ none := by
  intro l
  induction l with
  | nil => intro c br h; exact Option.noConfusion h
  | cons x rest ih =>
      intro c br
      simp only [runBest]
      by_cases hx : br < rowsN x
      · rw [if_pos hx]; exact ih x (rowsN x)
      · rw [if_neg hx]; exact ih c br

/-- If the fold from an empty running best produces nothing, no candidate
beat the initial row count. -/
theorem runBest_none_bound :
    ∀ (l : List FinanceParseResult) (br : ℕ),
      runBest l none br = none → ∀ x ∈ l, rowsN x ≤ br := by
  intro l
  induction l with
  | nil => intro br _ x hx; cases hx
  | cons c rest ih =>
      intro br h x hx
      simp only [runBest] at h
      by_cases hc : br < rowsN c
      · rw [if_pos hc] at h
        exact absurd h (runBest_some_of_some rest c (rowsN c))
      · rw [if_neg hc] at h
        rcases List.mem_cons.mp hx with rfl | hx2
        · exact not_lt.mp hc
        · exact ih br h x hx2

/-- The selected candidate is a surviving candidate (or was the initial
accumulator). -/
theorem runBest_mem :
    ∀ (l : List FinanceParseResult) (b : Option FinanceParseResult) (br : ℕ)
      (r : FinanceParseResult),
      runBest l b br = some r → r ∈ l ∨ b = some r := by
  intro l
  induction l with
  | nil => intro b br r h; exact Or.inr h
  | cons c rest ih =>
      intro b br r h
      simp only [runBest] at h
      by_cases hc : br < rowsN c
      · rw [if_pos hc] at h
        rcases ih (some c) (rowsN c) r h with hm | he
        · exact Or.inl (List.mem_cons_of_mem c hm)
        · exact Or.inl (Option.some.inj he ▸ List.mem_cons_self c rest)
      · rw [if_neg hc] at h
        rcases ih b br r h with hm | he
        · exact Or.inl (List.mem_cons_of_mem c hm)
        · exact Or.inr he

/-- The running-best fold keeps the first candidate attaining the
maximal row count: either the initial accumulator survives and bounds
everything, or the result splits the list with strictly smaller row
counts before it and no larger ones after it. -/
theorem runBest_spec :
    ∀ (l : List FinanceParseResult) (b : Option FinanceParseResult) (br : ℕ)
      (r : FinanceParseResult),
      (match b with
        | none => br = 0
        | some x => br = rowsN x) →
      runBest l b br = some r →
      (b = some r ∧ ∀ x ∈ l, rowsN x ≤ br) ∨
        (∃ l1 l2, l = l1 ++ r :: l2 ∧ br < rowsN r ∧
          (∀ x ∈ l1, rowsN x < rowsN r) ∧ (∀ x ∈ l2, rowsN x ≤ rowsN r)) := by
  intro l
  induction l with
  | nil =>
      intro b br r _ h
      exact Or.inl ⟨h, by intro x hx; cases hx⟩
  | cons c rest ih =>
      intro b br r hinv h
      simp only [runBest] at h
      by_cases hc : br < rowsN c
      · rw [if_pos hc] at h
        rcases ih (some c) (rowsN c) r rfl h with ⟨heq, hall⟩ | ⟨l1, l2, hsplit, hlt, h1, h2⟩
        · have hcr : c = r := Option.some.inj heq
          subst hcr
          exact Or.inr ⟨[], rest, rfl, hc, fun x hx => absurd hx (List.not_mem_nil x), hall⟩
        · refine Or.inr ⟨c :: l1, l2, by rw [hsplit, List.cons_append], hc.trans hlt, ?_, h2⟩
          intro x hx
          rcases List.mem_cons.mp hx with rfl | hx2
          · exact hlt
          · exact h1 x hx2
      · rw [if_neg hc] at h
        rcases ih b br r hinv h with ⟨heq, hall⟩ | ⟨l1, l2, hsplit, hlt, h1, h2⟩
        · refine Or.inl ⟨heq, ?_⟩
          intro x hx
          rcases List.mem_cons.mp hx with rfl | hx2
          · exact not_lt.mp hc
          · exact hall x hx2
        · refine Or.inr ⟨c :: l1, l2, by rw [hsplit, List.cons_append], hlt, ?_, h2⟩
          intro x hx
          rcases List.mem_cons.mp hx with rfl | hx2
          · exact lt_of_le_of_lt (not_lt.mp hc) hlt
          · exact h1 x hx2

/-- Inversion of `okSomeGrid`: a surviving candidate comes from a grid
whose processing returned it without raising. -/
theorem okSomeGrid_eq_some {t : List (List (Option String))} {r : FinanceParseResult}
    (h : okSomeGrid t = some r) : processGrid t = Except.ok (some r) := by
  unfold okSomeGrid at h
  split at h
  · rename_i heq
    exact (Option.some.inj h) ▸ heq
  · exact Option.noConfusion h

/-- If the grid loop returns at all, no grid raised. -/
theorem runBestE_all_ok :
    ∀ (tables : List (List (List (Option String)))) (b : Option FinanceParseResult) (br : ℕ)
      (x : Option FinanceParseResult),
      runBestE tables b br = Except.ok x →
      ∀ t ∈ tables, ∃ o, processGrid t = Except.ok o := by
  intro tables
  induction tables with
  | nil => intro b br x _ t ht; exact absurd ht (List.not_mem_nil t)
  | cons hd tl ih =>
      intro b br x hrun t ht
      simp only [runBestE] at hrun
      rcases hpg : processGrid hd with e | o
      · rw [hpg] at hrun
        exact Except.noConfusion hrun
      · cases ht with
        | head => exact ⟨o, hpg⟩
        | tail _ ht2 =>
            rw [hpg] at hrun
            rcases o with _ | c
            · exact ih _ _ _ hrun t ht2
            · dsimp only at hrun
              split at hrun
              · exact ih _ _ _ hrun t ht2
              · exact ih _ _ _ hrun t ht2

/-- When no grid raises, the grid loop is the running-best fold over the
surviving candidates in encounter order. -/
theorem runBestE_eq_runBest :
    ∀ (tables : List (List (List (Option String)))) (b : Option FinanceParseResult) (br : ℕ),
      (∀ t ∈ tables, ∃ o, processGrid t = Except.ok o) →
      runBestE tables b br = Except.ok (runBest (tables.filterMap okSomeGrid) b br) := by
  intro tables
  induction tables with
  | nil => intro b br _; rfl
  | cons hd tl ih =>
      intro b br h
      obtain ⟨o, ho⟩ := h hd (List.mem_cons_self hd tl)
      have htl : ∀ t ∈ tl, ∃ o, processGrid t = Except.ok o :=
        fun t ht => h t (List.mem_cons_of_mem hd ht)
      rcases o with _ | c
      · have hos : okSomeGrid hd = none := by
          unfold okSomeGrid
          rw [ho]
        simp only [runBestE, List.filterMap_cons, ho, hos]
        exact ih b br htl
      · have hos : okSomeGrid hd = some c := by
          unfold okSomeGrid
          rw [ho]
        simp only [runBestE, List.filterMap_cons, ho, hos, runBest]
        by_cases hlt : br < rowsN c
        · simp only [if_pos hlt]
          exact ih _ _ htl
        · simp only [if_neg hlt]
          exact ih _ _ htl

/-- A hint match returns one of the offered columns. -/
theorem best_col_mem {cols hints : List String} {c : String}
    (h : _best_col cols hints = some c) : c ∈ cols := by
  unfold _best_col at h
  obtain ⟨hint, _, hfind⟩ := List.exists_of_findSome?_eq_some h
  exact List.mem_of_find?_eq_some hfind

/-- The running score-maximum returns one of the offered items. -/
theorem bestByScore_fst_mem :
    ∀ (items : List (String × ℚ)) (acc : Option String × ℚ) (c : String),
      (items.foldl (fun acc it => if acc.2 < it.2 then (some it.1, it.2) else acc) acc).1 = some c →
      c ∈ items.map Prod.fst ∨ acc.1 = some c := by
  intro items
  induction items with
  | nil => intro acc c h; exact Or.inr h
  | cons it rest ih =>
      intro acc c h
      simp only [List.foldl_cons] at h
      rcases ih _ c h with hm | hacc
      · exact Or.inl (List.mem_cons_of_mem _ hm)
      · by_cases hlt : acc.2 < it.2
        · rw [if_pos hlt] at hacc
          exact Or.inl (by simpa using Or.inl (Option.some.inj hacc).symm)
        · rw [if_neg hlt] at hacc
          exact Or.inr hacc

/-- The running score-maximum starting empty returns one of the items. -/
theorem bestByScore_mem {items : List (String × ℚ)} {c : String}
    (h : (bestByScore items).1 = some c) : c ∈ items.map Prod.fst := by
  rcases bestByScore_fst_mem items (none, 0) c h with hm | habs
  · exact hm
  · exact absurd habs (by simp)

/-- The detector `_detect_category_col` never returns an excluded column. -/
theorem detect_category_not_excluded {df : Df} {exclude : List String} {c : String}
    (h : _detect_category_col df exclude = some c) : ¬ exclude.contains c := by
  unfold _detect_category_col at h
  dsimp only at h
  have hmem : c ∈ df.header.filter (fun c => ¬ exclude.contains c) := by
    rcases hcase : _best_col (df.header.filter (fun c => ¬ exclude.contains c)) _CATEGORY_HINTS
      with _ | hinted
    · rw [hcase] at h
      have hm := bestByScore_mem h
      rcases List.mem_map.mp hm with ⟨pair, hpair, hfst⟩
      rcases List.mem_filterMap.mp hpair with ⟨col, hcol, hmk⟩
      by_cases hdup : 1 < df.header.count col
      · rw [if_pos hdup] at hmk
        exact absurd hmk (by simp)
      · rw [if_neg hdup] at hmk
        by_cases hs : ((df.colByName col).filterMap id).isEmpty
        · rw [if_pos hs] at hmk
          exact absurd hmk (by simp)
        · rw [if_neg hs] at hmk
          obtain rfl := Option.some.inj hmk
          exact hfst ▸ hcol
    · rw [hcase] at h
      exact (Option.some.inj h) ▸ best_col_mem hcase
  have := List.of_mem_filter hmem
  simpa using this

/-- What the coercion phase returns when it survives: at least 3 validated
rows, and a category column distinct from the claimed datetime and amount
columns. -/
theorem processDetected_facts (header : List String) (rows1 : List (List (Option String)))
    (dtCol amtCol : String) (r : FinanceParseResult)
    (h : processDetected header rows1 dtCol amtCol = Except.ok (some r)) :
    3 ≤ rowsN r ∧ ∀ c, r.category_col = some c → c ≠ r.datetime_col ∧ c ≠ r.amount_col := by
  unfold processDetected at h
  dsimp only at h
  repeat' split at h
  all_goals try exact Except.noConfusion h
  all_goals try exact Option.noConfusion (Except.ok.inj h)
  obtain rfl := Option.some.inj (Except.ok.inj h)
  constructor
  · simp only [rowsN]
    omega
  · intro c hc
    have hnc := detect_category_not_excluded hc
    simp only [List.contains_cons, List.contains_nil, Bool.or_false, Bool.or_eq_true,
      beq_iff_eq, not_or] at hnc
    exact ⟨hnc.1, hnc.2⟩

/-- What a surviving candidate of the rejection pipeline looks like: at
least 3 validated rows, and a category column distinct from the claimed
datetime and amount columns. -/
theorem processGrid_facts (t : List (List (Option String))) (r : FinanceParseResult)
    (h : processGrid t = Except.ok (some r)) :
    3 ≤ rowsN r ∧ ∀ c, r.category_col = some c → c ≠ r.datetime_col ∧ c ≠ r.amount_col := by
  unfold processGrid at h
  rcases t with _ | ⟨headerRow, body⟩
  · exact absurd h (by simp)
  · dsimp only at h
    repeat' split at h
    all_goals try exact Except.noConfusion h
    all_goals try exact Option.noConfusion (Except.ok.inj h)
    exact processDetected_facts _ _ _ _ r h

section FoldBounds

variable {α : Type} [LinearOrder α]

theorem foldl_min_le_init (l : List α) : ∀ a : α, l.foldl Min.min a ≤ a := by
  induction l with
  | nil => intro a; exact le_refl a
  | cons c rest ih =>
      intro a
      simpa using (ih (Min.min a c)).trans (min_le_left a c)

theorem foldl_min_le_mem (l : List α) : ∀ (a x : α), x ∈ l → l.foldl Min.min a ≤ x := by
  induction l with
  | nil => intro a x hx; cases hx
  | cons c rest ih =>
      intro a x hx
      rcases List.mem_cons.mp hx with rfl | hx2
      · simpa using (foldl_min_le_init rest (Min.min a x)).trans (min_le_right a x)
      · simpa using ih (Min.min a c) x hx2

theorem init_le_foldl_max (l : List α) : ∀ a : α, a ≤ l.foldl Max.max a := by
  induction l with
  | nil => intro a; exact le_refl a
  | cons c rest ih =>
      intro a
      simpa using (le_max_left a c).trans (ih (Max.max a c))

theorem mem_le_foldl_max (l : List α) : ∀ (a x : α), x ∈ l → x ≤ l.foldl Max.max a := by
  induction l with
  | nil => intro a x hx; cases hx
  | cons c rest ih =>
      intro a x hx
      rcases List.mem_cons.mp hx with rfl | hx2
      · simpa using (le_max_right a x).trans (init_le_foldl_max rest (Max.max a x))
      · simpa using ih (Max.max a c) x hx2

theorem foldl_max_le (l : List α) :
    ∀ (a b : α), a ≤ b → (∀ x ∈ l, x ≤ b) → l.foldl Max.max a ≤ b := by
  induction l with
  | nil => intro a b hab _; exact hab
  | cons c rest ih =>
      intro a b hab hall
      simp only [List.foldl_cons]
      exact ih (Max.max a c) b (max_le hab (hall c (List.mem_cons_self c rest)))
        (fun x hx => hall x (List.mem_cons_of_mem c hx))

end FoldBounds

/-- Computing `find?` over an append whose first part has no hits. -/
theorem find?_append_of_none {α : Type} {l1 : List α} (l2 : List α) {p : α → Bool}
    (h1 : ∀ x ∈ l1, ¬ p x) : (l1 ++ l2).find? p = l2.find? p := by
  induction l1 with
  | nil => rfl
  | cons c rest ih =>
      have hc : ¬ p c := h1 c (List.mem_cons_self c rest)
      simp only [List.cons_append, List.find?_cons, Bool.not_eq_true] at *
      rw [hc]
      exact ih fun x hx => (h1 x (List.mem_cons_of_mem c hx))

/-- The maximal validated row count among candidates. -/
def maxRows (l : List FinanceParseResult) : ℕ :=
  (l.map rowsN).foldl Max.max 0

/-! ### The claims -/

/-- C1: On the grid `[["Date","Amount","Category"],["2024-01-05","-50.00","Food"],
["2024-01-06","200.00","Salary"],["2024-02-01","-30.00","Food"]]`,
`parse_financial_tables` detects datetimeColumn "Date", amountColumn
"Amount", categoryColumn "Category"; `totals` gives rows 3, sum 120,
income_sum_pos 200, expense_sum_neg -80; and monthly `aggregate_finance`
yields exactly the January-2024 bucket with total 150 and the
February-2024 bucket with total -30, in that order (periods are labelled
by their month index; `monthIndex ⟨2024,1,..⟩ = 24288` is January 2024). -/
theorem claim_C1 :
    parse_financial_tables [G1] = Except.ok (some rExpected) ∧
    rExpected.datetime_col = "Date" ∧ rExpected.amount_col = "Amount" ∧
    rExpected.category_col = some "Category" ∧
    (totals rExpected).rows = 3 ∧ (totals rExpected).sum = 120 ∧
    (totals rExpected).income_sum_pos = 200 ∧ (totals rExpected).expense_sum_neg = -80 ∧
    aggregate_finance rExpected Freq.M =
      [(monthIndex ⟨2024, 1, 5, 0, 0, 0⟩, 150, 150),
       (monthIndex ⟨2024, 2, 1, 0, 0, 0⟩, -30, 30)] :=
  ⟨by decide, rfl, rfl, rfl, by decide, by decide, by decide, by decide, by decide⟩

/-- C2 counterexample: the program raises rather than returning on
in-scope garbage grids, so "returns none when no grid survives the
rejection pipeline" fails as an unconditional statement.  A ragged grid
(maximal body-row width 1 against a header of length 2) makes
`pd.DataFrame` raise, and a grid whose detected datetime label "Date" is
duplicated makes `pd.to_datetime(df2["Date"], ...)` raise — in both cases
no grid survives, yet `parse_financial_tables` propagates the exception
instead of returning none. -/
theorem claim_C2_counterexample :
    parse_financial_tables [Gragged] =
      Except.error "2 columns passed, passed data had 1 columns" ∧
    ¬ parse_financial_tables [Gragged] = Except.ok none ∧
    parse_financial_tables [Gdup] =
      Except.error
        "to assemble mappings requires at least that [year, month, day] be specified" :=
  ⟨by decide, by decide, by decide⟩

/-- C2 (amended): whenever `parse_financial_tables` returns (no grid
raises), it returns `none` exactly when no grid survives the rejection
pipeline (`processGrid`, which embodies: fewer than 2 rows, fewer than 2
non-empty header cells, fewer than 3 body rows, missing datetime or
amount column, fewer than 3 rows after coercion); otherwise it returns a
surviving candidate whose validated row count is the greatest among the
survivors, and among equals the first encountered in input order (the
first survivor attaining the maximum). -/
theorem claim_C2 (tables : List (List (List (Option String)))) :
    (parse_financial_tables tables = Except.ok none ↔
      ∀ t ∈ tables, processGrid t = Except.ok none) ∧
    (∀ r, parse_financial_tables tables = Except.ok (some r) →
      r ∈ tables.filterMap okSomeGrid ∧
      rowsN r = maxRows (tables.filterMap okSomeGrid) ∧
      (tables.filterMap okSomeGrid).find?
        (fun x => rowsN x == maxRows (tables.filterMap okSomeGrid)) = some r) := by
  constructor
  · constructor
    · intro h t ht
      have hok := runBestE_all_ok tables none 0 none h t ht
      obtain ⟨o, ho⟩ := hok
      have hall : ∀ t2 ∈ tables, ∃ o2, processGrid t2 = Except.ok o2 :=
        runBestE_all_ok tables none 0 none h
      have heq := runBestE_eq_runBest tables none 0 hall
      rw [parse_financial_tables] at h
      rw [heq] at h
      have hnone : runBest (tables.filterMap okSomeGrid) none 0 = none :=
        Except.ok.inj h
      rcases o with _ | r
      · exact ho
      · have hmem : r ∈ tables.filterMap okSomeGrid := by
          refine List.mem_filterMap.mpr ⟨t, ht, ?_⟩
          unfold okSomeGrid
          rw [ho]
        have h0 := runBest_none_bound (tables.filterMap okSomeGrid) 0 hnone r hmem
        have h3 := (processGrid_facts t r ho).1
        omega
    · intro h
      have hall : ∀ t ∈ tables, ∃ o, processGrid t = Except.ok o :=
        fun t ht => ⟨none, h t ht⟩
      have heq := runBestE_eq_runBest tables none 0 hall
      have hnil : tables.filterMap okSomeGrid = [] := by
        refine List.filterMap_eq_nil_iff.mpr ?_
        intro t ht
        unfold okSomeGrid
        rw [h t ht]
      rw [parse_financial_tables, heq, hnil]
      rfl
  · intro r h
    have hall : ∀ t ∈ tables, ∃ o, processGrid t = Except.ok o :=
      runBestE_all_ok tables none 0 (some r) h
    have heq := runBestE_eq_runBest tables none 0 hall
    rw [parse_financial_tables] at h
    rw [heq] at h
    have hrb : runBest (tables.filterMap okSomeGrid) none 0 = some r :=
      Except.ok.inj h
    rcases runBest_spec (tables.filterMap okSomeGrid) none 0 r rfl hrb with
      ⟨habs, _⟩ | ⟨l1, l2, hsplit, _, h1, h2⟩
    · exact Option.noConfusion habs
    · have hall2 : ∀ x ∈ tables.filterMap okSomeGrid, rowsN x ≤ rowsN r := by
        intro x hx
        rw [hsplit] at hx
        rcases List.mem_append.mp hx with hx1 | hx2
        · exact (h1 x hx1).le
        · rcases List.mem_cons.mp hx2 with rfl | hx3
          · exact le_refl _
          · exact h2 x hx3
      have hmem : r ∈ tables.filterMap okSomeGrid := by
        rw [hsplit]
        exact List.mem_append.mpr (Or.inr (List.mem_cons_self r l2))
      have hmax : rowsN r = maxRows (tables.filterMap okSomeGrid) := by
        refine le_antisymm ?_ ?_
        · exact mem_le_foldl_max _ 0 (rowsN r) (List.mem_map.mpr ⟨r, hmem, rfl⟩)
        · refine foldl_max_le _ 0 (rowsN r) (Nat.zero_le _) ?_
          intro y hy
          rcases List.mem_map.mp hy with ⟨x, hx, rfl⟩
          exact hall2 x hx
      refine ⟨hmem, hmax, ?_⟩
      have hmax2 : rowsN r = maxRows (l1 ++ r :: l2) := hsplit ▸ hmax
      rw [hsplit]
      rw [find?_append_of_none (r :: l2) ?_]
      · have hpr : (rowsN r == maxRows (l1 ++ r :: l2)) = true := by
          simp [← hmax2]
        rw [List.find?_cons, hpr]
      · intro x hx1
        have hlt := h1 x hx1
        simp only [← hmax2, beq_iff_eq, Bool.not_eq_true, beq_eq_false_iff_ne, ne_eq]
        omega

/-- Witness for C2 (amended) at the scenario grid: the selected candidate
is the (sole) survivor, attains the maximal row count, and is the first
doing so. -/
theorem claim_C2_witness :
    rExpected ∈ [G1].filterMap okSomeGrid ∧
    rowsN rExpected = maxRows ([G1].filterMap okSomeGrid) ∧
    ([G1].filterMap okSomeGrid).find?
      (fun x => rowsN x == maxRows ([G1].filterMap okSomeGrid)) = some rExpected :=
  (claim_C2 [G1]).2 rExpected (by decide)

/-- C10: Whenever `parse_financial_tables` returns a result with a
category column, that column differs from both the datetime column and
the amount column of the same result. -/
theorem claim_C10 (tables : List (List (List (Option String))))
    (r : FinanceParseResult) (c : String)
    (h : parse_financial_tables tables = Except.ok (some r)) (hc : r.category_col = some c) :
    c ≠ r.datetime_col ∧ c ≠ r.amount_col := by
  have hall : ∀ t ∈ tables, ∃ o, processGrid t = Except.ok o :=
    runBestE_all_ok tables none 0 (some r) h
  have heq := runBestE_eq_runBest tables none 0 hall
  rw [parse_financial_tables] at h
  rw [heq] at h
  have hrb : runBest (tables.filterMap okSomeGrid) none 0 = some r :=
    Except.ok.inj h
  rcases runBest_mem (tables.filterMap okSomeGrid) none 0 r hrb with hmem | habs
  · rcases List.mem_filterMap.mp hmem with ⟨t, _, hpt⟩
    exact (processGrid_facts t r (okSomeGrid_eq_some hpt)).2 c hc
  · exact Option.noConfusion habs

/-- Witness for C10 at the scenario grid. -/
theorem claim_C10_witness :
    "Category" ≠ rExpected.datetime_col ∧ "Category" ≠ rExpected.amount_col :=
  claim_C10 [G1] rExpected "Category" (by decide) (by decide)

/-- The source's `if len(l) else 0.0` guard around a sum is redundant:
the sum of an empty series is already 0. -/
theorem sumQ_if_len (l : List ℚ) : (if l.length ≠ 0 then sumQ l else 0) = sumQ l := by
  by_cases h : l.length = 0
  · rw [if_neg (by simpa using h)]
    rw [List.length_eq_zero.mp h]
    rfl
  · rw [if_pos h]

/-- A four-row fixture with amounts 0.10, -0.30, 0.10, 0.10 (their exact
decimal values; the program stores their float64 roundings). -/
def pC8 : FinanceParseResult :=
  { header := ["Date", "Amount"]
    rows :=
      [⟨⟨2024, 1, 1, 0, 0, 0⟩, Rat.divInt 1 10, [some "2024-01-01", some "0.10"]⟩,
       ⟨⟨2024, 1, 2, 0, 0, 0⟩, Rat.divInt (-3) 10, [some "2024-01-02", some "-0.30"]⟩,
       ⟨⟨2024, 1, 3, 0, 0, 0⟩, Rat.divInt 1 10, [some "2024-01-03", some "0.10"]⟩,
       ⟨⟨2024, 1, 4, 0, 0, 0⟩, Rat.divInt 1 10, [some "2024-01-04", some "0.10"]⟩]
    datetime_col := "Date"
    amount_col := "Amount"
    category_col := none }

/-- C8 counterexample: the program sums float64 values, and float addition
does not associate.  At the amounts 0.10, -0.30, 0.10, 0.10 (all nonzero)
the income sum is 0.1+0.1+0.1 = 0.30000000000000004 and the expense sum
is -0.3, so income_sum_pos + expense_sum_neg is 2^-54 =
5.551115123125783e-17; net_sum sums the same doubles in row order and
gives 2^-55 = 2.7755575615628914e-17.  The two sides differ, refuting the
exact identity the claim asserts of the program's float arithmetic. -/
theorem claim_C8_counterexample :
    (amounts pC8).all (fun x => decide (x ≠ 0)) = true ∧
    fadd (fsum ((famounts pC8).filter (fun x => 0 < x)))
        (fsum ((famounts pC8).filter (fun x => x < 0))) = mulPow2 1 (-54) ∧
    fsum (famounts pC8) = mulPow2 1 (-55) ∧
    fadd (fsum ((famounts pC8).filter (fun x => 0 < x)))
        (fsum ((famounts pC8).filter (fun x => x < 0))) ≠ fsum (famounts pC8) :=
  ⟨by decide, by decide, by decide, by decide⟩

/-- C8 (amended): in exact arithmetic — the ideal values of the float64
sums — for a dataset with no zero-amount rows `totals.sum` equals
`advancedSummary.net_sum`, and the positive-amount sum plus the
negative-amount sum equals the net sum; the program's float64 summation
realizes the partition identity only up to rounding (see the
counterexample). -/
theorem claim_C8 (p : FinanceParseResult) (h : ∀ r ∈ p.rows, r.amt ≠ 0) :
    (totals p).sum = (advanced_summary p).net_sum ∧
    (advanced_summary p).income_sum_pos + (advanced_summary p).expense_sum_neg =
      (advanced_summary p).net_sum := by
  have hamounts : ∀ x ∈ amounts p, x ≠ 0 := by
    intro x hx
    rcases List.mem_map.mp hx with ⟨r, hr, rfl⟩
    exact h r hr
  constructor
  · rfl
  · have hstep : (advanced_summary p).income_sum_pos + (advanced_summary p).expense_sum_neg
        = sumQ ((amounts p).filter (fun x => 0 < x)) + sumQ ((amounts p).filter (fun x => x < 0)) := by
      show (if _ then _ else _) + (if _ then _ else _) = _
      rw [sumQ_if_len, sumQ_if_len]
    rw [hstep]
    show _ = sumQ (amounts p)
    rw [sumQ_eq_sum, sumQ_eq_sum, sumQ_eq_sum]
    exact sum_filter_pos_add_neg (amounts p) hamounts

/-- Witness for C8 at the scenario table (amounts -50, 200, -30). -/
theorem claim_C8_witness :
    (totals rExpected).sum = (advanced_summary rExpected).net_sum ∧
    (advanced_summary rExpected).income_sum_pos + (advanced_summary rExpected).expense_sum_neg =
      (advanced_summary rExpected).net_sum :=
  claim_C8 rExpected (by decide)

/-- The stripped string is wrapped in parentheses: it starts with `(` and
ends with `)`. -/
def wrappedInParens (s : String) : Bool :=
  let l := pyStrip s.data
  l.head? = some '(' && l.getLast? = some ')'

/-- C7 counterexample: `"(0)"` is wrapped in parentheses and coerces to a
parseable number, yet `_to_number` yields 0 (`-abs(0)`), which is not a
negative value — refuting "yields a negative value when the string is
wrapped in parentheses" as stated. -/
theorem claim_C7_counterexample :
    _to_number (some "(0)") = some 0 ∧ wrappedInParens "(0)" = true ∧ ¬ (0 : ℚ) < 0 :=
  ⟨by decide, by decide, by decide⟩

/-- C7 (amended): `_to_number` maps `"(120.50)"` to -120.50 and
`"$1,234.56"` to 1234.56 (currency symbol and thousands separators
stripped); a string wrapped in parentheses yields the negated absolute
value — non-positive, and negative whenever the parsed magnitude is
nonzero; and when the stripped residue is not a parseable number the
result is missing. -/
theorem claim_C7 :
    _to_number (some "(120.50)") = some (Rat.divInt (-241) 2) ∧
    _to_number (some "$1,234.56") = some (Rat.divInt 30864 25) ∧
    (∀ (s : String) (v : ℚ), wrappedInParens s = true → _to_number (some s) = some v →
      ∃ u, parsePyFloat (amountClean (pyStrip s.data)) = some u ∧ v = -|u|) ∧
    (∀ (s : String) (v : ℚ), wrappedInParens s = true → _to_number (some s) = some v →
      v ≤ 0 ∧ (v ≠ 0 → v < 0)) ∧
    (∀ s : String, parsePyFloat (amountClean (pyStrip s.data)) = none →
      _to_number (some s) = none) := by
  have habs : ∀ (s : String) (v : ℚ), wrappedInParens s = true → _to_number (some s) = some v →
      ∃ u, parsePyFloat (amountClean (pyStrip s.data)) = some u ∧ v = -|u| := by
    intro s v hw h
    unfold wrappedInParens at hw
    unfold _to_number at h
    dsimp only at h hw
    rcases hstrip : pyStrip s.data with _ | ⟨c, rest⟩
    · rw [hstrip] at hw
      exact absurd hw (by decide)
    · rw [hstrip] at hw h
      simp only [Bool.and_eq_true, decide_eq_true_eq, List.head?_cons, Option.some.injEq] at hw
      obtain ⟨rfl, hlast⟩ := hw
      have hmemL : (')' : Char) ∈ '(' :: rest := List.mem_of_mem_getLast? hlast
      have hmemR : (')' : Char) ∈ rest := by
        rcases List.mem_cons.mp hmemL with heq | hr
        · exact absurd heq (by decide)
        · exact hr
      have hcontL : (('(' :: rest).contains '(' && ('(' :: rest).contains ')') = true := by
        simp only [Bool.and_eq_true, List.contains_cons]
        exact ⟨by simp, by simp [hmemR]⟩
      simp only [List.isEmpty_cons, if_false, Bool.false_eq_true] at h
      rw [hcontL] at h
      rcases hclean : amountClean ('(' :: rest) with _ | ⟨c2, rest2⟩
      · rw [hclean] at h
        simp at h
      · rw [hclean] at h
        simp only [List.isEmpty_cons, if_false, Bool.false_eq_true] at h
        rcases hparse : parsePyFloat (c2 :: rest2) with _ | u
        · rw [hparse] at h
          exact absurd h (by simp)
        · rw [hparse] at h
          simp only [if_true] at h
          exact ⟨u, rfl, (Option.some.inj h).symm⟩
  refine ⟨by decide, by decide, habs, ?_, ?_⟩
  · intro s v hw h
    obtain ⟨u, _, rfl⟩ := habs s v hw h
    exact ⟨neg_nonpos_of_nonneg (abs_nonneg u),
      fun hne => lt_of_le_of_ne (neg_nonpos_of_nonneg (abs_nonneg u)) hne⟩
  · intro s hp
    unfold _to_number
    dsimp only
    rcases hstrip : pyStrip s.data with _ | ⟨c, rest⟩
    · rfl
    · rw [hstrip] at hp
      simp only [List.isEmpty_cons, if_false, Bool.false_eq_true]
      rcases hclean : amountClean (c :: rest) with _ | ⟨c2, rest2⟩
      · rfl
      · rw [hclean] at hp
        simp only [List.isEmpty_cons, if_false, Bool.false_eq_true]
        rw [hp]

/-- Witness for C7's amended clauses: `"(7)"` (wrapped, nonzero
magnitude) gives a negative value, and `"abc"` (no parseable residue)
gives missing. -/
theorem claim_C7_witness :
    ((-7 : ℚ) < 0) ∧ _to_number (some "abc") = none :=
  ⟨(claim_C7.2.2.2.1 "(7)" (-7) (by decide) (by decide)).2 (by decide),
   claim_C7.2.2.2.2 "abc" (by decide)⟩

/-- C4 (code bug): on the two-character input `"ab"` with
`chunk_size = 1` and `overlap = 1` (valid per the claim: chunk_size > 0,
overlap ≥ 0), the window loop of `chunk_text` re-computes
`start = max(0, 1 - 1) = 0` forever: no amount of fuel makes the loop
finish, so the Python function does not terminate — and the fuelled
embedding reports the exhaustion (`Except.ok none`).  The validation
clauses themselves hold: `chunk_text` raises exactly on a non-positive
chunk size or a negative overlap. -/
theorem claim_C4 :
    chunk_text "ab" 1 1 = Except.ok none ∧
    (∀ (fuel : ℕ) (acc : List String), chunkLoop "ab".data 1 1 fuel 0 acc = none) ∧
    (∀ (text : String) (cs ov : ℤ), (∃ e, chunk_text text cs ov = Except.error e) ↔
      cs ≤ 0 ∨ ov < 0) := by
  refine ⟨by decide, ?_, ?_⟩
  · intro fuel
    induction fuel with
    | zero => intro acc; rfl
    | succ n ih =>
        intro acc
        simp only [chunkLoop]
        rw [if_neg (by decide)]
        have harg : Min.min ("ab".data).length (0 + 1) - 1 = 0 := by decide
        rw [harg]
        exact ih _
  · intro text cs ov
    constructor
    · rintro ⟨e, he⟩
      unfold chunk_text at he
      by_cases h1 : cs ≤ 0
      · exact Or.inl h1
      · rw [if_neg h1] at he
        by_cases h2 : ov < 0
        · exact Or.inr h2
        · rw [if_neg h2] at he
          dsimp only at he
          split at he
          · exact absurd he (by simp)
          · exact absurd he (by simp)
    · intro h
      unfold chunk_text
      by_cases h1 : cs ≤ 0
      · exact ⟨"chunk_size must be > 0", by rw [if_pos h1]⟩
      · have h2 : ov < 0 := h.resolve_left h1
        exact ⟨"overlap must be >= 0", by rw [if_neg h1, if_pos h2]⟩

/-- C6: A normalized question that is an underspecified summarization
request (contains a summarization keyword, none of the scope markers)
makes `answer_with_llm_or_extract` return the fixed clarifying question
with `used_llm = false` and zero oracle invocations, whatever the
configured provider, the oracle behaviors, and the retrieved passages. -/
theorem claim_C6 (env : OracleEnv) (question : String) (retrieved : List RetrievedPassage)
    (h : _summary_is_underspecified (normalize_user_question question) = true) :
    answer_with_llm_or_extract env question retrieved = (clarifyScopeMsg, false, 0) := by
  unfold answer_with_llm_or_extract
  dsimp only
  rw [h]
  rfl

/-- Witness for C6: the bare question "summarize" with a configured
Gemini oracle that would answer — the router still returns the clarifying
question and makes no oracle call. -/
theorem claim_C6_witness :
    answer_with_llm_or_extract
      ⟨"Gemini", fun _ => (some "an answer", none), fun _ => some "an answer",
        fun _ => (some "an answer", none)⟩
      "summarize" [⟨"a passage", 1⟩] = (clarifyScopeMsg, false, 0) :=
  claim_C6 _ "summarize" _ (by decide)

/-- C9: Every reachable `FaissIndex` state has as many vectors as
passages; `add` with matching counts appends both collections by that
same amount; `add` with mismatched counts raises and produces no new
state (the caller's state is untouched); `search` leaves the state
unchanged. -/
theorem claim_C9 :
    (∀ s : FaissIndex, FaissReachable s → s.vectors.length = s.passages.length) ∧
    (∀ (s : FaissIndex) (v : List (List ℚ)) (p : List String),
      p.length = v.length →
      s.add v p = Except.ok ⟨s.dim, s.vectors ++ v, s.passages ++ p⟩) ∧
    (∀ (s : FaissIndex) (v : List (List ℚ)) (p : List String),
      p.length ≠ v.length →
      s.add v p = Except.error "passages and vectors must have same length") ∧
    (∀ (s : FaissIndex) (q : List ℚ) (k : ℕ), (s.searchOp q k).1 = s) := by
  refine ⟨?_, ?_, ?_, ?_⟩
  · intro s hs
    induction hs with
    | init dim => rfl
    | step s v p s' _ hadd ih =>
        unfold FaissIndex.add at hadd
        by_cases hlen : p.length = v.length
        · rw [if_neg (by simpa using hlen)] at hadd
          obtain rfl := Except.ok.inj hadd
          simp [List.length_append, ih, hlen]
        · rw [if_pos (by simpa using hlen)] at hadd
          exact Except.noConfusion hadd
  · intro s v p h
    unfold FaissIndex.add
    rw [if_neg (by simpa using h)]
  · intro s v p h
    unfold FaissIndex.add
    rw [if_pos (by simpa using h)]
  · intro s q k
    rfl

/-- Witness for C9: a state reached by one successful `add` satisfies the
invariant; concrete matching and mismatched `add`s; a concrete search
leaves the state unchanged. -/
theorem claim_C9_witness :
    (⟨3, [[1, 0, 0]], ["hello"]⟩ : FaissIndex).vectors.length =
      (⟨3, [[1, 0, 0]], ["hello"]⟩ : FaissIndex).passages.length ∧
    (faissInit 3).add [[1, 0, 0]] ["hello"] = Except.ok ⟨3, [[1, 0, 0]], ["hello"]⟩ ∧
    (faissInit 3).add [[1, 0, 0]] [] = Except.error "passages and vectors must have same length" ∧
    ((⟨3, [[1, 0, 0]], ["hello"]⟩ : FaissIndex).searchOp [1, 0, 0] 5).1 =
      (⟨3, [[1, 0, 0]], ["hello"]⟩ : FaissIndex) :=
  ⟨claim_C9.1 _ (FaissReachable.step (faissInit 3) [[1, 0, 0]] ["hello"] _
      (FaissReachable.init 3) (by decide)),
   claim_C9.2.1 (faissInit 3) [[1, 0, 0]] ["hello"] (by decide),
   claim_C9.2.2.1 (faissInit 3) [[1, 0, 0]] [] (by decide),
   claim_C9.2.2.2 _ [1, 0, 0] 5⟩

/-- Rebracketing the first fold step: folding from the head twice is the
same as folding once (`min` is idempotent). -/
theorem foldl_min_self (x : ℤ) (l : List ℤ) :
    (x :: l).foldl Min.min x = l.foldl Min.min x := by
  simp [List.foldl_cons, min_self]

/-- Rebracketing the first fold step: folding from the head twice is the
same as folding once (`max` is idempotent). -/
theorem foldl_max_self (x : ℤ) (l : List ℤ) :
    (x :: l).foldl Max.max x = l.foldl Max.max x := by
  simp [List.foldl_cons, max_self]

/-- What the resampling bins satisfy: strictly ascending period labels,
every row's period among the labels, each bin's total the sum of the
amounts falling in it (with `abs_total` its absolute value), and the
labels exactly the consecutive range from the smallest to the largest
period the rows occupy (the gap-filling of `resample`). -/
theorem aggBuckets_spec (freq : Freq) (rows : List FinRow) (r0 : FinRow) :
    ((aggBuckets freq rows r0).map (fun b => b.1)).Pairwise (· < ·) ∧
    (∀ r ∈ rows, periodIdx freq r.dt ∈ (aggBuckets freq rows r0).map (fun b => b.1)) ∧
    (∀ b ∈ aggBuckets freq rows r0,
      b.2.1 = ((rows.filter (fun r => periodIdx freq r.dt = b.1)).map (fun r => r.amt)).sum ∧
      b.2.2 = |b.2.1|) ∧
    (aggBuckets freq rows r0).map (fun b => b.1) =
      consecRange
        ((rows.map (fun r => periodIdx freq r.dt)).foldl Min.min (periodIdx freq r0.dt))
        ((rows.map (fun r => periodIdx freq r.dt)).foldl Max.max (periodIdx freq r0.dt)) := by
  unfold aggBuckets
  dsimp only
  set ks := rows.map (fun r => periodIdx freq r.dt) with hks
  set kmin := ks.foldl Min.min (periodIdx freq r0.dt) with hkmin
  set kmax := ks.foldl Max.max (periodIdx freq r0.dt) with hkmax
  refine ⟨?_, ?_, ?_, ?_⟩
  · simp only [List.map_map, List.pairwise_map]
    refine (List.pairwise_lt_range _).imp ?_
    intro a b hab
    simp only [Function.comp_apply]
    omega
  · intro r hr
    have hmem : periodIdx freq r.dt ∈ ks := List.mem_map.mpr ⟨r, hr, rfl⟩
    have hmin : kmin ≤ periodIdx freq r.dt := foldl_min_le_mem ks _ _ hmem
    have hmax : periodIdx freq r.dt ≤ kmax := mem_le_foldl_max ks _ _ hmem
    simp only [List.map_map, List.mem_map, List.mem_range, Function.comp_apply]
    clear_value ks kmin kmax
    refine ⟨(periodIdx freq r.dt - kmin).toNat, ?_, ?_⟩
    · omega
    · omega
  · intro b hb
    rcases List.mem_map.mp hb with ⟨i, _, rfl⟩
    exact ⟨sumQ_eq_sum _, rfl⟩
  · rw [List.map_map]
    rfl

/-- C3 counterexample: for the January/March fixture, monthly
`aggregate_finance` emits a February-2024 bucket (period index 24289)
although no input row falls in that period — pandas `resample` gap-fills
empty bins with zero sums, so "buckets with no rows are not synthesized"
fails on the code. -/
theorem claim_C3_counterexample :
    aggregate_finance pJanMar Freq.M = [(24288, 15, 15), (24289, 0, 0), (24290, 7, 7)] ∧
    pJanMar.rows.all (fun r => periodIdx Freq.M r.dt ≠ 24289) = true ∧
    (24289, (0 : ℚ), (0 : ℚ)) ∈ aggregate_finance pJanMar Freq.M :=
  ⟨by decide, by decide, by decide⟩

/-- C3 (amended): for every nonempty FinanceParseResult and every
granularity, the output bins of `aggregateFinance` are strictly ascending
by period; the bin labels are exactly the consecutive range of periods
from the earliest to the latest occupied one — so the bins cover every
occupied period, and the empty periods in between ARE synthesized (with
total 0, by the sum clause on an empty filter — the gap-filling the
original claim denied); and each bin's total is the sum of the amounts of
the rows falling in it, with `abs_total` its absolute value. -/
theorem claim_C3 (p : FinanceParseResult) (freq : Freq) (hne : p.rows ≠ []) :
    ((aggregate_finance p freq).map (fun b => b.1)).Pairwise (· < ·) ∧
    (∀ r ∈ p.rows, periodIdx freq r.dt ∈ (aggregate_finance p freq).map (fun b => b.1)) ∧
    (∀ b ∈ aggregate_finance p freq,
      b.2.1 = ((p.rows.filter (fun r => periodIdx freq r.dt = b.1)).map (fun r => r.amt)).sum ∧
      b.2.2 = |b.2.1|) ∧
    (aggregate_finance p freq).map (fun b => b.1) =
      consecRange (listMinD (occupiedPeriods p freq)) (listMaxD (occupiedPeriods p freq)) := by
  rcases hrows : p.rows with _ | ⟨r0, rest⟩
  · exact absurd hrows hne
  · have hagg : aggregate_finance p freq = aggBuckets freq (r0 :: rest) r0 := by
      unfold aggregate_finance
      rw [hrows]
    have hocc : occupiedPeriods p freq =
        periodIdx freq r0.dt :: rest.map (fun r => periodIdx freq r.dt) := by
      unfold occupiedPeriods
      rw [hrows]
      rfl
    have hmin : listMinD (occupiedPeriods p freq) =
        ((r0 :: rest).map (fun r => periodIdx freq r.dt)).foldl Min.min (periodIdx freq r0.dt) := by
      rw [hocc, List.map_cons, foldl_min_self]
      rfl
    have hmax : listMaxD (occupiedPeriods p freq) =
        ((r0 :: rest).map (fun r => periodIdx freq r.dt)).foldl Max.max (periodIdx freq r0.dt) := by
      rw [hocc, List.map_cons, foldl_max_self]
      rfl
    rw [hagg, hmin, hmax]
    exact aggBuckets_spec freq (r0 :: rest) r0

/-- Witness for C3 (amended) at the January/March fixture. -/
theorem claim_C3_witness :
    ((aggregate_finance pJanMar Freq.M).map (fun b => b.1)).Pairwise (· < ·) :=
  (claim_C3 pJanMar Freq.M (by decide)).1


end DocCore
